import Mathlib

/-!
Shallow embedding of the pirate-cities economic simulation
(src/pirate_cities: resource.py, config.py, city.py, ship.py).

Python floats are modelled as real numbers, Python `int(x)` as truncation
toward zero (`pyInt`), `np.clip` as `clip`, and Python dicts as
insertion-ordered association lists with update-in-place-or-append
assignment semantics.
-/

namespace PirateCities

/-- Python `int(x)` applied to a float: truncation toward zero. -/
noncomputable def pyInt (x : ℝ) : ℤ := if 0 ≤ x then ⌊x⌋ else ⌈x⌉

/-- The `np.clip(x, lo, hi)` used by `City.price`: clamp `x` into `[lo, hi]`. -/
noncomputable def clip (x lo hi : ℝ) : ℝ := min (max x lo) hi

/-- resource.py: the `ResourceName` enum (gold is a separate currency). -/
inductive ResourceName where
  | food
  | goods
  | luxuries
  | cannons
deriving DecidableEq, Repr

/-- Declaration order of the `ResourceName` enum, the order Python iterates it in. -/
def allResources : List ResourceName := [.food, .goods, .luxuries, .cannons]

/-- resource.py: `BASE_RESOURCE_PRICE_IN_GOLD`. -/
noncomputable def BASE_RESOURCE_PRICE_IN_GOLD : ResourceName → ℝ
  | .food => 3
  | .goods => 5
  | .luxuries => 10
  | .cannons => 1

/-- resource.py: `RESOURCE_PRICE_LIMITS = (1 / 1_000_000, 200)`. -/
noncomputable def RESOURCE_PRICE_LIMITS : ℝ × ℝ := (1 / 1000000, 200)

/-- resource.py: `RESOURCE_PRICE_ELASTICITY = 0.5`. -/
noncomputable def RESOURCE_PRICE_ELASTICITY : ℝ := 0.5

/-- config.py: `DAYS_PER_ITERATION = 1`. -/
noncomputable def DAYS_PER_ITERATION : ℝ := 1

/-- city.py: `CITY_INFORMATION_PRICE_IN_GOLD = 100`. -/
noncomputable def CITY_INFORMATION_PRICE_IN_GOLD : ℝ := 100

/-- city.py: `INITIAL_CAPACITY = 100`. -/
noncomputable def INITIAL_CAPACITY : ℝ := 100

/-- city.py: `GROWTH_RATE_PER_DAY = 0.5`. -/
noncomputable def GROWTH_RATE_PER_DAY : ℝ := 0.5

/-- city.py: `EXCESS_SUPPLY_FRACTION = 0.8`. -/
noncomputable def EXCESS_SUPPLY_FRACTION : ℝ := 0.8

/-- city.py: `CONSUMPTION_TONS_PER_CAPITA_PER_DAY` (the four `ResourceName` entries;
the series' gold entry is never consulted through `City.demand`). -/
noncomputable def CONSUMPTION_TONS_PER_CAPITA_PER_DAY : ResourceName → ℝ
  | .food => 0.0063
  | .goods => 0.0025
  | .luxuries => 0.001
  | .cannons => 0.0001

/-- city.py: `INITIAL_PRODUCTION_TONS_PER_CAPITA_PER_DAY` (the four `ResourceName`
entries; the series' gold entry is never consulted through `City.production`). -/
noncomputable def INITIAL_PRODUCTION_TONS_PER_CAPITA_PER_DAY : ResourceName → ℝ
  | .food => 0.003
  | .goods => 0.001
  | .luxuries => 0
  | .cannons => 0

/-- Observable fields of a city as stored in another city's `information` dict.
Entries of `information` are only ever read for their `name` and
`recency_in_iterations`, and copied wholesale, so one level of nesting
suffices for the operations modelled here. -/
structure CitySnap where
  name : String
  base_population : ℝ
  gold : ℝ
  food : ℝ
  goods : ℝ
  luxuries : ℝ
  cannons : ℝ
  recency_in_iterations : ℤ

/-- city.py: the `City` dataclass (location omitted: no claim consults it).
Stocks and gold are ints at construction but become floats through trading,
hence real-valued fields. -/
structure City where
  name : String
  base_population : ℝ
  gold : ℝ
  food : ℝ
  goods : ℝ
  luxuries : ℝ
  cannons : ℝ
  recency_in_iterations : ℤ
  information : List (String × CitySnap)

/-- The snapshot a `copy(city)` stores into an `information` dict. -/
def City.toSnap (c : City) : CitySnap :=
  { name := c.name
    base_population := c.base_population
    gold := c.gold
    food := c.food
    goods := c.goods
    luxuries := c.luxuries
    cannons := c.cannons
    recency_in_iterations := c.recency_in_iterations }

/-- city.py `City.__getitem__` on a `ResourceName` (the `self[resource]` reads). -/
def City.stock (c : City) : ResourceName → ℝ
  | .food => c.food
  | .goods => c.goods
  | .luxuries => c.luxuries
  | .cannons => c.cannons

/-- city.py `City.__setitem__` on a `ResourceName` (the `self[resource] = v` writes). -/
def City.setStock (c : City) (r : ResourceName) (v : ℝ) : City :=
  match r with
  | .food => { c with food := v }
  | .goods => { c with goods := v }
  | .luxuries => { c with luxuries := v }
  | .cannons => { c with cannons := v }

/-- city.py `City.base_capacity`: `INITIAL_CAPACITY / (1 + 10 ** (-food / 1_000))`
(uncached path; the cache only exists for the duration of `City.step`). -/
noncomputable def City.base_capacity (c : City) : ℝ :=
  INITIAL_CAPACITY / (1 + (10 : ℝ) ^ (-c.food / 1000))

/-- city.py `City.capacity`: `base_capacity * (1 + Σ stock[r] * CAPACITY_SCALES[r])`,
where `CAPACITY_SCALES` ranges over gold 0.15, food 0.6, goods 0.07,
luxuries 0.15, cannons 0.03 (the sum written out). -/
noncomputable def City.capacity (c : City) : ℝ :=
  c.base_capacity *
    (1 + (c.gold * 0.15 + c.food * 0.6 + c.goods * 0.07 + c.luxuries * 0.15 + c.cannons * 0.03))

/-- city.py `City.population`:
`capacity / (1 + (capacity / base_population - 1) * exp(-GROWTH_RATE_PER_DAY * DAYS_PER_ITERATION))`. -/
noncomputable def City.population (c : City) : ℝ :=
  c.capacity /
    (1 + (c.capacity / c.base_population - 1) *
      Real.exp (-(GROWTH_RATE_PER_DAY * DAYS_PER_ITERATION)))

/-- city.py `City.demand`. -/
noncomputable def City.demand (c : City) (r : ResourceName) : ℝ :=
  c.population * CONSUMPTION_TONS_PER_CAPITA_PER_DAY r

/-- city.py `City.supply`. -/
noncomputable def City.supply (c : City) (r : ResourceName) : ℝ := c.stock r

/-- city.py `City.excess_supply`. -/
noncomputable def City.excess_supply (c : City) (r : ResourceName) : ℝ :=
  max 0 (EXCESS_SUPPLY_FRACTION * (c.supply r - c.demand r))

/-- city.py `City.production`. -/
noncomputable def City.production (c : City) (r : ResourceName) : ℝ :=
  c.population * INITIAL_PRODUCTION_TONS_PER_CAPITA_PER_DAY r

/-- city.py `City.price`: floor on no demand, ceiling on no supply, otherwise
`base_price * (demand/supply) ** RESOURCE_PRICE_ELASTICITY` clipped into the limits. -/
noncomputable def City.price (c : City) (r : ResourceName) : ℝ :=
  if c.demand r ≤ 0 then RESOURCE_PRICE_LIMITS.1
  else if c.supply r ≤ 0 then RESOURCE_PRICE_LIMITS.2
  else
    clip (BASE_RESOURCE_PRICE_IN_GOLD r * (c.demand r / c.supply r) ^ RESOURCE_PRICE_ELASTICITY)
      RESOURCE_PRICE_LIMITS.1 RESOURCE_PRICE_LIMITS.2

/-- city.py `City.step`: with `population` and `capacity` frozen at entry,
every resource stock moves by `production - demand`, then
`base_population *= (1 + GROWTH_RATE_PER_DAY * (1 - population / capacity)) * DAYS_PER_ITERATION`,
the cache is dropped and `recency_in_iterations` is incremented.
Gold and `information` are untouched. -/
noncomputable def City.step (c : City) : City :=
  let pop := c.population
  let cap := c.capacity
  { c with
    food := c.food + (pop * INITIAL_PRODUCTION_TONS_PER_CAPITA_PER_DAY .food
      - pop * CONSUMPTION_TONS_PER_CAPITA_PER_DAY .food)
    goods := c.goods + (pop * INITIAL_PRODUCTION_TONS_PER_CAPITA_PER_DAY .goods
      - pop * CONSUMPTION_TONS_PER_CAPITA_PER_DAY .goods)
    luxuries := c.luxuries + (pop * INITIAL_PRODUCTION_TONS_PER_CAPITA_PER_DAY .luxuries
      - pop * CONSUMPTION_TONS_PER_CAPITA_PER_DAY .luxuries)
    cannons := c.cannons + (pop * INITIAL_PRODUCTION_TONS_PER_CAPITA_PER_DAY .cannons
      - pop * CONSUMPTION_TONS_PER_CAPITA_PER_DAY .cannons)
    base_population :=
      c.base_population * ((1 + GROWTH_RATE_PER_DAY * (1 - pop / cap)) * DAYS_PER_ITERATION)
    recency_in_iterations := c.recency_in_iterations + 1 }

/-- Python dict read `m[k]` / `k in m` on an insertion-ordered association list. -/
def alookup {α : Type} : List (String × α) → String → Option α
  | [], _ => none
  | (k, v) :: m, key => if k = key then some v else alookup m key

/-- Python dict write `m[k] = v`: update in place if the key exists
(keeping its position), otherwise append. -/
def ainsert {α : Type} (m : List (String × α)) (key : String) (v : α) : List (String × α) :=
  match m with
  | [] => [(key, v)]
  | (k, w) :: m => if k = key then (k, v) :: m else (k, w) :: ainsert m key v

/-- Python dict union `l | m`: start from `l`, then assign every entry of `m`
in order (right operand wins on duplicate keys, position from the left). -/
def dunion {α : Type} (l m : List (String × α)) : List (String × α) :=
  m.foldl (fun acc p => ainsert acc p.1 p.2) l

/-- Stable insertion of `a` into a descending-sorted list: `a` goes after
every earlier element whose key is not smaller. -/
def insertDescBy {α β : Type} [LinearOrder β] (key : α → β) (a : α) : List α → List α
  | [] => [a]
  | b :: l => if key b < key a then a :: b :: l else b :: insertDescBy key a l

/-- Python `sorted(xs, key=key, reverse=True)`: stable descending sort. -/
def sortDescBy {α β : Type} [LinearOrder β] (key : α → β) : List α → List α
  | [] => []
  | a :: l => insertDescBy key a (sortDescBy key l)

/-- Priority `city_info_recency_diff` assigns to one candidate in
`City.buy_city_info`: `np.inf` (here `⊤`) when the buyer does not know the
city, the positive recency gap when the candidate is newer, nothing
otherwise. `nm`/`rc` project a stored entry's `name`/`recency_in_iterations`. -/
def candPriority {α : Type} (nm : α → String) (rc : α → ℤ)
    (info : List (String × α)) (c : α) : Option (WithTop ℤ) :=
  match alookup info (nm c) with
  | none => some ⊤
  | some stored => if 0 < rc c - rc stored then some ((rc c - rc stored : ℤ) : WithTop ℤ) else none

/-- The `city_info_recency_diff` dict of `City.buy_city_info`, as the list of
(name, priority) pairs in candidate order, qualifying candidates only. -/
def diffList {α : Type} (nm : α → String) (rc : α → ℤ)
    (info cityInfos : List (String × α)) : List (String × WithTop ℤ) :=
  cityInfos.filterMap fun p =>
    (candPriority nm rc info p.2).map (fun d => (nm p.2, d))

/-- The acquisition loop of `City.buy_city_info` over the sorted candidate
names: stop when gold drops below the fee, otherwise store a copy of
`city_infos[name]` under `name`, pay the fee and continue. Returns the final
gold, the final information dict, and the total price charged. A `none`
lookup (impossible for the well-named dicts the program builds, a `KeyError`
in Python) stops the loop. -/
noncomputable def buyLoop {α : Type} (cityInfos : List (String × α)) :
    ℝ → List (String × α) → List String → ℝ × List (String × α) × ℝ
  | gold, info, [] => (gold, info, 0)
  | gold, info, n :: rest =>
    if gold < CITY_INFORMATION_PRICE_IN_GOLD then (gold, info, 0)
    else
      match alookup cityInfos n with
      | none => (gold, info, 0)
      | some c =>
        let r := buyLoop cityInfos (gold - CITY_INFORMATION_PRICE_IN_GOLD) (ainsert info n c) rest
        (r.1, r.2.1, r.2.2 + CITY_INFORMATION_PRICE_IN_GOLD)

/-- The dict update one acquisition performs: store the candidate found for
`n` in `city_infos` under key `n` (no-op on a missing key, which for the
well-named dicts the program builds never occurs). -/
def storeFact {α : Type} (cityInfos : List (String × α))
    (i : List (String × α)) (n : String) : List (String × α) :=
  match alookup cityInfos n with
  | some c => ainsert i n c
  | none => i

/-- The sorted candidate names `City.buy_city_info` iterates over:
`city_infos = {source.name: source} | source.information`, then the
qualifying candidates sorted by recency gap, most outdated first. -/
def buyOrder {α : Type} (nm : α → String) (rc : α → ℤ)
    (info : List (String × α)) (source : α) (sourceInfo : List (String × α)) : List String :=
  (sortDescBy (fun p => p.2) (diffList nm rc info (dunion [(nm source, source)] sourceInfo))).map
    Prod.fst

/-- Core of city.py `City.buy_city_info`, generic in the stored entry type:
returns (buyer gold after, buyer information after, total price paid). -/
noncomputable def buyCityInfoCore {α : Type} (nm : α → String) (rc : α → ℤ)
    (gold : ℝ) (info : List (String × α)) (source : α) (sourceInfo : List (String × α)) :
    ℝ × List (String × α) × ℝ :=
  buyLoop (dunion [(nm source, source)] sourceInfo) gold info (buyOrder nm rc info source sourceInfo)

/-- city.py `City.buy_city_info` in the value model: the buyer's gold and
information are updated, the total price paid is returned. -/
noncomputable def City.buy_city_info (buyer : City) (source : City) : City × ℝ :=
  let r := buyCityInfoCore CitySnap.name CitySnap.recency_in_iterations
    buyer.gold buyer.information source.toSnap source.information
  ({ buyer with gold := r.1, information := r.2.1 }, r.2.2)

/-- Per-resource cargo dict of a ship (`self._cargo`, keys fixed to the four
resources by `clear_cargo`). -/
structure Cargo where
  food : ℝ
  goods : ℝ
  luxuries : ℝ
  cannons : ℝ

/-- Cargo dict read. -/
def Cargo.get (c : Cargo) : ResourceName → ℝ
  | .food => c.food
  | .goods => c.goods
  | .luxuries => c.luxuries
  | .cannons => c.cannons

/-- Cargo dict write. -/
def Cargo.set (c : Cargo) (r : ResourceName) (v : ℝ) : Cargo :=
  match r with
  | .food => { c with food := v }
  | .goods => { c with goods := v }
  | .luxuries => { c with luxuries := v }
  | .cannons => { c with cannons := v }

/-- ship.py `Ship.total_cargo_in_tons`: `sum(self._cargo.values())`. -/
def Cargo.total (c : Cargo) : ℝ := c.food + c.goods + c.luxuries + c.cannons

/-- The all-zero cargo dict `clear_cargo` produces. -/
def Cargo.zero : Cargo := { food := 0, goods := 0, luxuries := 0, cannons := 0 }

/-- The parts of a ship a docked trade operation reads and writes:
its cargo dict and its gold. -/
structure ShipHold where
  cargo : Cargo
  gold : ℝ

/-- ship.py `Ship.get_resource_names_ordered_by_margin`: resources sorted by
`destination.price - owner_info.price`, highest first (stable on ties). -/
noncomputable def resourcesByMarginDesc (dest ownerInfo : City) : List ResourceName :=
  sortDescBy (fun r => dest.price r - ownerInfo.price r) allResources

/-- Loop body sequence of ship.py `Ship._sell_cargo_at_destination` over a
resource order: earnings are capped by the destination's gold, the sold
tonnage is the truncated affordable amount, cargo moves ship→city and gold
city→ship. -/
noncomputable def sellLoop (s : ShipHold) (dest : City) :
    List ResourceName → ShipHold × City
  | [] => (s, dest)
  | r :: rest =>
    let price := dest.price r
    let earnings0 := min (s.cargo.get r * price) dest.gold
    let sold : ℝ := (pyInt (earnings0 / price) : ℝ)
    let earnings := sold * price
    sellLoop
      { cargo := s.cargo.set r (s.cargo.get r - sold), gold := s.gold + earnings }
      { (dest.setStock r (dest.stock r + sold)) with
          gold := dest.gold - earnings }
      rest

/-- ship.py `Ship._sell_cargo_at_destination`. -/
noncomputable def sellCargoAtDestination (ownerInfo : City) (s : ShipHold) (dest : City) :
    ShipHold × City :=
  sellLoop s dest (resourcesByMarginDesc dest ownerInfo)

/-- ship.py `Ship._sell_per_agenda` over the agenda's sell orders
(resource, target or None = all): selling is capped by carried cargo and by
the destination's gold; cargo moves ship→city, gold city→ship. The
`_sold_cargo` bookkeeping dict is not modelled (nothing reads it back in the
operations under claim). -/
noncomputable def sellPerAgenda (s : ShipHold) (dest : City) :
    List (ResourceName × Option ℤ) → ShipHold × City
  | [] => (s, dest)
  | (r, amount) :: rest =>
    let available := s.cargo.get r
    if available ≤ 0 then sellPerAgenda s dest rest
    else
      let toSell : ℝ := match amount with
        | none => available
        | some a => (pyInt (min available (a : ℝ)) : ℝ)
      let price := dest.price r
      let earnings := toSell * price
      let actualEarnings := min earnings dest.gold
      let actualSold : ℝ := if 0 < price then (pyInt (actualEarnings / price) : ℝ) else 0
      sellPerAgenda
        { cargo := s.cargo.set r (s.cargo.get r - actualSold), gold := s.gold + actualSold * price }
        { (dest.setStock r (dest.stock r + actualSold)) with
            gold := dest.gold - actualSold * price }
        rest

/-- ship.py `Ship.cargo_to_buy`: resources with positive owner demand paired
with the truncated demand, sorted by demand, highest first. -/
noncomputable def cargoToBuy (ownerInfo : City) : List (ResourceName × ℤ) :=
  sortDescBy (fun p => p.2)
    ((allResources.filter fun r => decide (0 < ownerInfo.demand r)).map
      fun r => (r, pyInt (ownerInfo.demand r)))

/-- Loop of ship.py `Ship._buy_cargo_at_destination` over `cargo_to_buy`:
breaks when the hold is full or gold is exhausted; the bought amount is the
truncation of the least of remaining hold and what gold or the city's
saleable excess affords. The destination city is returned unchanged: the
source mutates neither its stock nor its gold here. -/
noncomputable def buyLoopAtDestination (maxHold : ℝ) (dest : City) (s : ShipHold) :
    List (ResourceName × ℤ) → ShipHold × City
  | [] => (s, dest)
  | (r, amountInTons) :: rest =>
    let remaining := maxHold - s.cargo.total
    if remaining ≤ 0 then (s, dest)
    else if s.gold ≤ 0 then (s, dest)
    else
      let price := dest.price r
      let maxPriceForSale := min (amountInTons : ℝ) (dest.excess_supply r) * price
      let amount : ℝ := (pyInt (min remaining (min s.gold maxPriceForSale / price)) : ℝ)
      buyLoopAtDestination maxHold dest
        { cargo := s.cargo.set r (s.cargo.get r + amount), gold := s.gold - amount * price }
        rest

/-- ship.py `Ship._buy_cargo_at_destination`. -/
noncomputable def buyCargoAtDestination (maxHold : ℝ) (ownerInfo : City) (s : ShipHold)
    (dest : City) : ShipHold × City :=
  buyLoopAtDestination maxHold dest s (cargoToBuy ownerInfo)

/-- The `min(future_prices)` of ship.py `Ship._buy_per_agenda`:
`remaining_cities = [destination, *route[idx + 1:]]` is never empty, so this
is the least price among this stop and the unvisited future stops. -/
noncomputable def minFuturePrice (dest : City) (route : List City) (idx : ℕ)
    (r : ResourceName) : ℝ :=
  ((route.drop (idx + 1)).map (fun c => c.price r)).foldl min (dest.price r)

/-- ship.py `Ship._buy_per_agenda` over the agenda's buy orders
(resource, target or None = unbounded): buy at this stop only when its price
is at most every unvisited future stop's price; amount capped by need,
saleable excess, truncated remaining capacity and affordable gold. Faithful
to the source, the destination's stock is decremented but its gold is never
credited. -/
noncomputable def buyPerAgenda (maxHold : ℝ) (route : List City) (idx : ℕ)
    (s : ShipHold) (dest : City) : List (ResourceName × Option ℤ) → ShipHold × City
  | [] => (s, dest)
  | (r, target) :: rest =>
    let already := s.cargo.get r
    let need : Option ℝ := match target with
      | none => none
      | some t => some (max 0 ((t : ℝ) - already))
    if _h : ∃ n, need = some n ∧ n ≤ 0 then buyPerAgenda maxHold route idx s dest rest
    else
      let minFuture := minFuturePrice dest route idx r
      let current := dest.price r
      if current ≤ minFuture then
        let remainingCapacity : ℤ := pyInt (maxHold - s.cargo.total)
        if remainingCapacity ≤ 0 then (s, dest)
        else
          let supplier := dest.excess_supply r
          let needOrCap : ℝ := match need with
            | none => (remainingCapacity : ℝ)
            | some n => n
          let amountAvailable : ℤ :=
            pyInt (min needOrCap (min supplier (remainingCapacity : ℝ)))
          let maxAffordable : ℤ := if 0 < current then ⌊s.gold / current⌋ else 0
          let buyAmount : ℤ := min amountAvailable maxAffordable
          if buyAmount ≤ 0 then buyPerAgenda maxHold route idx s dest rest
          else
            buyPerAgenda maxHold route idx
              { cargo := s.cargo.set r (s.cargo.get r + (buyAmount : ℝ)),
                gold := s.gold - (buyAmount : ℝ) * current }
              (dest.setStock r (dest.stock r - (buyAmount : ℝ)))
              rest
      else buyPerAgenda maxHold route idx s dest rest

/-- Loop of ship.py `Ship._load_cargo_to_sell` over the excess-sorted
resources: break when the hold is full or the next excess is non-positive;
the cargo entry is overwritten (not incremented) with the truncated load and
the owner's stock decremented by it. -/
noncomputable def loadLoop (maxHold : ℝ) (s : ShipHold) (start : City) :
    List (ResourceName × ℝ) → ShipHold × City
  | [] => (s, start)
  | (r, excess) :: rest =>
    let remaining := maxHold - s.cargo.total
    if remaining ≤ 0 ∨ excess ≤ 0 then (s, start)
    else
      let amt : ℝ := (pyInt (min excess remaining) : ℝ)
      loadLoop maxHold
        { cargo := s.cargo.set r amt, gold := s.gold }
        (start.setStock r (start.stock r - amt))
        rest

/-- ship.py `Ship._load_cargo_to_sell`: load the owner's excesses (highest
first), then overwrite the ship's gold with `int(0.3 * u * owner.gold)` for
the random draw `u ∈ [0, 1)` and deduct it from the owner. -/
noncomputable def loadCargoToSell (maxHold : ℝ) (u : ℝ) (s : ShipHold) (start : City) :
    ShipHold × City :=
  let r := loadLoop maxHold s start
    (sortDescBy (fun p => p.2) (allResources.map fun r => (r, start.excess_supply r)))
  let g : ℝ := (pyInt (0.3 * u * r.2.gold) : ℝ)
  ({ cargo := r.1.cargo, gold := g }, { r.2 with gold := r.2.gold - g })

/-- Key-consistency of an information dict: every entry is stored under its
own `name`. Every dict the program builds has this shape (`buy_city_info`
stores `city_infos[city_name]` under `city_name`, which is that entry's
`city.name`). -/
def WellNamed {α : Type} (nm : α → String) (m : List (String × α)) : Prop :=
  ∀ p ∈ m, nm p.2 = p.1

/-- Distinctness of the keys of an association list, as a Python dict has. -/
def NodupKeys {α : Type} (m : List (String × α)) : Prop :=
  (m.map Prod.fst).Nodup

/-- Reference-semantics model of a city for the snapshot-aliasing claim:
`copy.copy` duplicates the scalar dataclass fields but copies the
`information` dict by reference, so the dict lives in a heap of dict
objects addressed by `infoRef`. Only the observable scalars the claim's
operations touch are carried. -/
structure HCity where
  name : String
  gold : ℝ
  food : ℝ
  recency_in_iterations : ℤ
  infoRef : ℕ

/-- A heap of information-dict objects: address → current dict contents. -/
def Heap : Type := ℕ → List (String × HCity)

/-- Python `copy.copy` on a `City`: a fresh object with the same field
values; the `information` reference (`infoRef`) is shared, not duplicated. -/
def copyH (c : HCity) : HCity := c

/-- Destructive update of the dict object at `ref` (what Python's in-place
`self.information[k] = v` assignments amount to for every holder of the
reference). -/
def Heap.write (h : Heap) (ref : ℕ) (d : List (String × HCity)) : Heap :=
  fun n => if n = ref then d else h n

/-- city.py `City.buy_city_info` in the reference-semantics model: read the
source's dict through its reference, run the acquisition loop, write the
buyer's updated dict back in place through the buyer's reference. Returns
(heap after, buyer after, price paid). -/
noncomputable def buyCityInfoH (h : Heap) (buyer source : HCity) : Heap × HCity × ℝ :=
  let r := buyCityInfoCore HCity.name HCity.recency_in_iterations
    buyer.gold (h buyer.infoRef) (copyH source) (h source.infoRef)
  (h.write buyer.infoRef r.2.1, { buyer with gold := r.1 }, r.2.2)

/-- Owner city for the concrete trading scenario: capacity
`50 * (1 + 1000*0.15 + 700*0.07) = 10000 = base_population`, so its derived
population is exactly 10000 and its truncated demands are
food 63, goods 25, luxuries 10, cannons 1. -/
noncomputable def cityBigOwner : City :=
  { name := "O", base_population := 10000, gold := 1000, food := 0, goods := 700,
    luxuries := 0, cannons := 0, recency_in_iterations := 0, information := [] }

/-- Destination city for the concrete trading scenario: capacity
`50 * (1 + 122*0.15 + 10*0.07) = 1000 = base_population`, population exactly
1000, so `demand(goods) = 2.5`, `supply(goods) = 10`, and
`price(goods) = 5 * sqrt(1/4) = 2.5`; its other stocks are empty, pricing
them at the ceiling with zero excess supply. -/
noncomputable def cityCheap : City :=
  { name := "D", base_population := 1000, gold := 122, food := 0, goods := 10,
    luxuries := 0, cannons := 0, recency_in_iterations := 0, information := [] }

/-- Expensive stop for the agenda-buy scenario: all stocks empty, capacity
`50 = base_population`, population exactly 50, positive demand everywhere,
so every price sits at the ceiling 200. -/
noncomputable def cityE : City :=
  { name := "E", base_population := 50, gold := 0, food := 0, goods := 0,
    luxuries := 0, cannons := 0, recency_in_iterations := 0, information := [] }

/-- City whose base population 1000 exceeds its capacity 50: the logistic
formula then yields a population strictly above capacity. -/
noncomputable def cityOver : City :=
  { name := "V", base_population := 1000, gold := 0, food := 0, goods := 0,
    luxuries := 0, cannons := 0, recency_in_iterations := 0, information := [] }

/-- City whose base population 10 is below its capacity 50: its population
stays strictly below capacity. -/
noncomputable def cityUnder : City :=
  { name := "U", base_population := 10, gold := 0, food := 0, goods := 0,
    luxuries := 0, cannons := 0, recency_in_iterations := 0, information := [] }

/-- Information buyer for the `buy_city_info` scenarios. -/
noncomputable def cityBuyer : City :=
  { name := "B", base_population := 100, gold := 1000, food := 0, goods := 0,
    luxuries := 0, cannons := 0, recency_in_iterations := 0, information := [] }

/-- Information source for the `buy_city_info` scenarios. -/
noncomputable def citySrc : City :=
  { name := "S", base_population := 100, gold := 0, food := 0, goods := 0,
    luxuries := 0, cannons := 0, recency_in_iterations := 3, information := [] }

/-- Heap with every dict object empty, for the aliasing scenario. -/
def heap0 : Heap := fun _ => []

/-- Live destination city in the aliasing scenario (dict object 0). -/
noncomputable def hDest : HCity :=
  { name := "D", gold := 500, food := 0, recency_in_iterations := 0, infoRef := 0 }

/-- The `owner_info` snapshot passed as source in the aliasing scenario
(dict object 1). -/
noncomputable def hOwnerSnap : HCity :=
  { name := "O", gold := 100, food := 0, recency_in_iterations := 1, infoRef := 1 }

/-- Empty ship hold carrying 100 gold, for the concrete scenarios. -/
noncomputable def shipStart : ShipHold :=
  { cargo := Cargo.zero, gold := 100 }

/-- Ship hold filled to exactly 20 tons, for the at-capacity witnesses. -/
noncomputable def shipFull : ShipHold :=
  { cargo := { food := 20, goods := 0, luxuries := 0, cannons := 0 }, gold := 100 }

/-- Ship hold after the concrete default buy at `cityCheap`: 6 tons of goods
bought for 15 gold. -/
noncomputable def shipMid : ShipHold :=
  { cargo := { food := 0, goods := 6, luxuries := 0, cannons := 0 }, gold := 85 }

/-! Helper lemmas about the numeric primitives. -/

theorem pyInt_intCast (n : ℤ) : pyInt (n : ℝ) = n := by
  unfold pyInt
  split <;> simp

theorem pyInt_cast_le {x : ℝ} (h : 0 ≤ x) : (pyInt x : ℝ) ≤ x := by
  unfold pyInt
  rw [if_pos h]
  exact Int.floor_le x

theorem pyInt_nonneg {x : ℝ} (h : 0 ≤ x) : 0 ≤ pyInt x := by
  unfold pyInt
  rw [if_pos h]
  exact Int.floor_nonneg.mpr h

theorem pyInt_le_of_le {x b : ℝ} (hxb : x ≤ b) (hb : 0 ≤ b) : (pyInt x : ℝ) ≤ b := by
  unfold pyInt
  split
  · exact le_trans (Int.floor_le x) hxb
  · have hx : x ≤ 0 := le_of_lt (lt_of_not_ge (by assumption))
    have : (⌈x⌉ : ℤ) ≤ 0 := Int.ceil_le.mpr (by exact_mod_cast hx)
    calc ((⌈x⌉ : ℤ) : ℝ) ≤ 0 := by exact_mod_cast this
      _ ≤ b := hb

theorem pyInt_pos_le {x : ℝ} (h : 0 < pyInt x) : (pyInt x : ℝ) ≤ x := by
  unfold pyInt at h ⊢
  split
  · exact Int.floor_le x
  · rw [if_neg (by assumption)] at h
    have hx : x ≤ 0 := le_of_lt (lt_of_not_ge (by assumption))
    exact absurd h (not_lt.mpr (Int.ceil_le.mpr (by exact_mod_cast hx)))

theorem clip_mem {x lo hi : ℝ} (h : lo ≤ hi) : lo ≤ clip x lo hi ∧ clip x lo hi ≤ hi := by
  unfold clip
  exact ⟨le_min (le_max_right x lo) h, min_le_right _ _⟩

/-! Helper lemmas about prices, capacity and population. -/

theorem price_limits_le : RESOURCE_PRICE_LIMITS.1 ≤ RESOURCE_PRICE_LIMITS.2 := by
  unfold RESOURCE_PRICE_LIMITS
  norm_num

theorem price_limits_pos : 0 < RESOURCE_PRICE_LIMITS.1 := by
  unfold RESOURCE_PRICE_LIMITS
  norm_num

theorem price_bounds (c : City) (r : ResourceName) :
    RESOURCE_PRICE_LIMITS.1 ≤ c.price r ∧ c.price r ≤ RESOURCE_PRICE_LIMITS.2 := by
  unfold City.price
  split
  · exact ⟨le_refl _, price_limits_le⟩
  · split
    · exact ⟨price_limits_le, le_refl _⟩
    · exact clip_mem price_limits_le

theorem price_pos (c : City) (r : ResourceName) : 0 < c.price r :=
  lt_of_lt_of_le price_limits_pos (price_bounds c r).1

theorem exp_iter_pos :
    0 < Real.exp (-(GROWTH_RATE_PER_DAY * DAYS_PER_ITERATION)) :=
  Real.exp_pos _

theorem exp_iter_lt_one :
    Real.exp (-(GROWTH_RATE_PER_DAY * DAYS_PER_ITERATION)) < 1 := by
  rw [Real.exp_lt_one_iff]
  unfold GROWTH_RATE_PER_DAY DAYS_PER_ITERATION
  norm_num

theorem base_capacity_of_food_zero {c : City} (h : c.food = 0) : c.base_capacity = 50 := by
  unfold City.base_capacity
  rw [h, neg_zero, zero_div, Real.rpow_zero]
  unfold INITIAL_CAPACITY
  norm_num

theorem population_eq_base {c : City} (h : c.capacity = c.base_population)
    (h0 : c.base_population ≠ 0) : c.population = c.base_population := by
  unfold City.population
  rw [h, div_self h0]
  simp

theorem capacity_cityBigOwner : cityBigOwner.capacity = 10000 := by
  unfold City.capacity
  rw [base_capacity_of_food_zero (c := cityBigOwner) rfl]
  show (50 : ℝ) * (1 + ((1000 : ℝ) * 0.15 + (0 : ℝ) * 0.6 + (700 : ℝ) * 0.07 +
    (0 : ℝ) * 0.15 + (0 : ℝ) * 0.03)) = 10000
  norm_num

theorem population_cityBigOwner : cityBigOwner.population = 10000 := by
  have h : cityBigOwner.capacity = cityBigOwner.base_population := by
    rw [capacity_cityBigOwner]
    rfl
  have h0 : cityBigOwner.base_population ≠ 0 := by
    show (10000 : ℝ) ≠ 0
    norm_num
  rw [population_eq_base h h0]
  rfl

theorem capacity_cityCheap : cityCheap.capacity = 1000 := by
  unfold City.capacity
  rw [base_capacity_of_food_zero (c := cityCheap) rfl]
  show (50 : ℝ) * (1 + ((122 : ℝ) * 0.15 + (0 : ℝ) * 0.6 + (10 : ℝ) * 0.07 +
    (0 : ℝ) * 0.15 + (0 : ℝ) * 0.03)) = 1000
  norm_num

theorem population_cityCheap : cityCheap.population = 1000 := by
  have h : cityCheap.capacity = cityCheap.base_population := by
    rw [capacity_cityCheap]
    rfl
  have h0 : cityCheap.base_population ≠ 0 := by
    show (1000 : ℝ) ≠ 0
    norm_num
  rw [population_eq_base h h0]
  rfl

/-- C2: for every city and resource the price lies inside the limits; the
no-demand case is the floor, the no-supply case (with demand) the ceiling,
and otherwise the elasticity formula clamped into the limits, with no
division by zero in any case. -/
theorem C2_price_spec (c : City) (r : ResourceName) :
    (RESOURCE_PRICE_LIMITS.1 ≤ c.price r ∧ c.price r ≤ RESOURCE_PRICE_LIMITS.2) ∧
    (c.demand r ≤ 0 → c.price r = RESOURCE_PRICE_LIMITS.1) ∧
    (0 < c.demand r → c.supply r ≤ 0 → c.price r = RESOURCE_PRICE_LIMITS.2) ∧
    (0 < c.demand r → 0 < c.supply r →
      c.price r =
        clip (BASE_RESOURCE_PRICE_IN_GOLD r *
            (c.demand r / c.supply r) ^ RESOURCE_PRICE_ELASTICITY)
          RESOURCE_PRICE_LIMITS.1 RESOURCE_PRICE_LIMITS.2) := by
  refine ⟨price_bounds c r, ?_, ?_, ?_⟩
  · intro h
    unfold City.price
    rw [if_pos h]
  · intro hd hs
    unfold City.price
    rw [if_neg (not_le.mpr hd), if_pos hs]
  · intro hd hs
    unfold City.price
    rw [if_neg (not_le.mpr hd), if_neg (not_le.mpr hs)]

/-- Witness for C2 at a concrete city: positive demand for food, zero
supply, price pinned at the ceiling. -/
theorem C2_price_spec_witness :
    0 < cityCheap.demand .food ∧ cityCheap.supply .food ≤ 0 ∧
      cityCheap.price .food = RESOURCE_PRICE_LIMITS.2 := by
  have hd : 0 < cityCheap.demand .food := by
    unfold City.demand
    rw [population_cityCheap]
    unfold CONSUMPTION_TONS_PER_CAPITA_PER_DAY
    norm_num
  have hs : cityCheap.supply .food ≤ 0 := by
    show (0 : ℝ) ≤ 0
    exact le_refl 0
  exact ⟨hd, hs, (C2_price_spec cityCheap .food).2.2.1 hd hs⟩

theorem capacity_of_all_zero {c : City} (hg : c.gold = 0) (hf : c.food = 0)
    (hgo : c.goods = 0) (hl : c.luxuries = 0) (hcn : c.cannons = 0) : c.capacity = 50 := by
  unfold City.capacity
  rw [base_capacity_of_food_zero hf, hg, hf, hgo, hl, hcn]
  norm_num

theorem capacity_cityOver : cityOver.capacity = 50 :=
  capacity_of_all_zero rfl rfl rfl rfl rfl

theorem capacity_cityUnder : cityUnder.capacity = 50 :=
  capacity_of_all_zero rfl rfl rfl rfl rfl

theorem capacity_cityE : cityE.capacity = 50 :=
  capacity_of_all_zero rfl rfl rfl rfl rfl

theorem population_cityE : cityE.population = 50 := by
  have h : cityE.capacity = cityE.base_population := by
    rw [capacity_cityE]
    rfl
  have h0 : cityE.base_population ≠ 0 := by
    show (50 : ℝ) ≠ 0
    norm_num
  rw [population_eq_base h h0]
  rfl

theorem pop_gt_cap_cityOver : cityOver.capacity < cityOver.population := by
  have he0 := exp_iter_pos
  have he1 := exp_iter_lt_one
  unfold City.population
  rw [capacity_cityOver]
  show (50 : ℝ) < 50 / (1 + ((50 : ℝ) / 1000 - 1) *
    Real.exp (-(GROWTH_RATE_PER_DAY * DAYS_PER_ITERATION)))
  have hd : (0 : ℝ) < 1 + ((50 : ℝ) / 1000 - 1) *
      Real.exp (-(GROWTH_RATE_PER_DAY * DAYS_PER_ITERATION)) := by nlinarith
  rw [lt_div_iff₀ hd]
  nlinarith

theorem pop_lt_cap_cityUnder : cityUnder.population < cityUnder.capacity := by
  have he0 := exp_iter_pos
  have he1 := exp_iter_lt_one
  unfold City.population
  rw [capacity_cityUnder]
  show (50 : ℝ) / (1 + ((50 : ℝ) / 10 - 1) *
    Real.exp (-(GROWTH_RATE_PER_DAY * DAYS_PER_ITERATION))) < 50
  have hd : (1 : ℝ) < 1 + ((50 : ℝ) / 10 - 1) *
      Real.exp (-(GROWTH_RATE_PER_DAY * DAYS_PER_ITERATION)) := by nlinarith
  exact div_lt_self (by norm_num) hd

/-- C3 (amended): with all stocks and gold non-negative,
`0 < base_capacity ≤ capacity`; a positive base population makes the derived
population positive; and the population stays at or below capacity provided
additionally `base_population ≤ capacity`. -/
theorem C3_capacity_population (c : City) (hg : 0 ≤ c.gold) (hf : 0 ≤ c.food)
    (hgo : 0 ≤ c.goods) (hl : 0 ≤ c.luxuries) (hcn : 0 ≤ c.cannons) :
    (0 < c.base_capacity ∧ c.base_capacity ≤ c.capacity) ∧
    (0 < c.base_population → 0 < c.population) ∧
    (0 < c.base_population → c.base_population ≤ c.capacity →
      c.population ≤ c.capacity) := by
  have hbc : 0 < c.base_capacity := by
    unfold City.base_capacity
    apply div_pos
    · unfold INITIAL_CAPACITY
      norm_num
    · have := Real.rpow_pos_of_pos (show (0 : ℝ) < 10 by norm_num) (-c.food / 1000)
      linarith
  have hS : 0 ≤ c.gold * 0.15 + c.food * 0.6 + c.goods * 0.07 +
      c.luxuries * 0.15 + c.cannons * 0.03 := by
    have t1 : 0 ≤ c.gold * 0.15 := mul_nonneg hg (by norm_num)
    have t2 : 0 ≤ c.food * 0.6 := mul_nonneg hf (by norm_num)
    have t3 : 0 ≤ c.goods * 0.07 := mul_nonneg hgo (by norm_num)
    have t4 : 0 ≤ c.luxuries * 0.15 := mul_nonneg hl (by norm_num)
    have t5 : 0 ≤ c.cannons * 0.03 := mul_nonneg hcn (by norm_num)
    linarith
  have hcap : c.base_capacity ≤ c.capacity := by
    unfold City.capacity
    exact le_mul_of_one_le_right hbc.le (by linarith)
  have hcappos : 0 < c.capacity := lt_of_lt_of_le hbc hcap
  have he0 := exp_iter_pos
  have he1 := exp_iter_lt_one
  refine ⟨⟨hbc, hcap⟩, ?_, ?_⟩
  · intro hb
    unfold City.population
    have hq : 0 < c.capacity / c.base_population := div_pos hcappos hb
    have hdenom : 0 < 1 + (c.capacity / c.base_population - 1) *
        Real.exp (-(GROWTH_RATE_PER_DAY * DAYS_PER_ITERATION)) := by nlinarith
    exact div_pos hcappos hdenom
  · intro hb hble
    unfold City.population
    have h1 : 1 ≤ c.capacity / c.base_population := (one_le_div hb).mpr hble
    have hdenom : 1 ≤ 1 + (c.capacity / c.base_population - 1) *
        Real.exp (-(GROWTH_RATE_PER_DAY * DAYS_PER_ITERATION)) := by nlinarith
    exact div_le_self hcappos.le hdenom

/-- Refutation of C3 as stated: a city with non-negative stocks and positive
base population whose derived population strictly exceeds its capacity, so
`population ∈ (0, capacity]` fails. -/
theorem C3_counterexample :
    0 ≤ cityOver.gold ∧ 0 ≤ cityOver.food ∧ 0 ≤ cityOver.goods ∧
    0 ≤ cityOver.luxuries ∧ 0 ≤ cityOver.cannons ∧
    0 < cityOver.base_population ∧
    ¬ (0 < cityOver.population ∧ cityOver.population ≤ cityOver.capacity) := by
  refine ⟨le_refl 0, le_refl 0, le_refl 0, le_refl 0, le_refl 0, ?_, ?_⟩
  · show (0 : ℝ) < 1000
    norm_num
  · rintro ⟨-, hle⟩
    exact absurd hle (not_le.mpr pop_gt_cap_cityOver)

/-- Witness for C3 (amended) at a concrete city below its capacity. -/
theorem C3_capacity_population_witness :
    (0 < cityUnder.base_capacity ∧ cityUnder.base_capacity ≤ cityUnder.capacity) ∧
    0 < cityUnder.population ∧ cityUnder.population ≤ cityUnder.capacity := by
  have h := C3_capacity_population cityUnder (le_refl 0) (le_refl 0) (le_refl 0)
    (le_refl 0) (le_refl 0)
  have hb : 0 < cityUnder.base_population := by
    show (0 : ℝ) < 10
    norm_num
  have hble : cityUnder.base_population ≤ cityUnder.capacity := by
    rw [capacity_cityUnder]
    show (10 : ℝ) ≤ 50
    norm_num
  exact ⟨h.1, h.2.1 hb, h.2.2 hb hble⟩

/-- C6: `City.step` multiplies `base_population` by exactly
`(1 + growth_rate * (1 - population/capacity)) * DAYS_PER_ITERATION`
(population and capacity frozen at entry), which with `DAYS_PER_ITERATION = 1`
is `1 + growth_rate * (1 - population/capacity)`; the base population shrinks
when the frozen population exceeds the frozen capacity and grows when it is
below it. -/
theorem C6_step_growth (c : City) :
    (c.step).base_population =
      c.base_population *
        ((1 + GROWTH_RATE_PER_DAY * (1 - c.population / c.capacity)) * DAYS_PER_ITERATION) ∧
    (c.step).base_population =
      c.base_population * (1 + GROWTH_RATE_PER_DAY * (1 - c.population / c.capacity)) ∧
    (0 < c.base_population → 0 < c.capacity →
      (c.capacity < c.population → (c.step).base_population < c.base_population) ∧
      (c.population < c.capacity → c.base_population < (c.step).base_population)) := by
  have h1 : (c.step).base_population =
      c.base_population *
        ((1 + GROWTH_RATE_PER_DAY * (1 - c.population / c.capacity)) * DAYS_PER_ITERATION) := rfl
  have h2 : (c.step).base_population =
      c.base_population * (1 + GROWTH_RATE_PER_DAY * (1 - c.population / c.capacity)) := by
    rw [h1]
    unfold DAYS_PER_ITERATION
    rw [mul_one]
  refine ⟨h1, h2, ?_⟩
  intro hb hcap
  constructor
  · intro hgt
    rw [h2]
    have hq : 1 < c.population / c.capacity := (one_lt_div hcap).mpr hgt
    have hf : 1 + GROWTH_RATE_PER_DAY * (1 - c.population / c.capacity) < 1 := by
      unfold GROWTH_RATE_PER_DAY
      nlinarith
    nlinarith
  · intro hlt
    rw [h2]
    have hq : c.population / c.capacity < 1 := (div_lt_one hcap).mpr hlt
    have hf : 1 < 1 + GROWTH_RATE_PER_DAY * (1 - c.population / c.capacity) := by
      unfold GROWTH_RATE_PER_DAY
      nlinarith
    nlinarith

/-- Witness for C6 at concrete cities: shrinkage above capacity, growth
below capacity. -/
theorem C6_step_growth_witness :
    0 < cityOver.base_population ∧ 0 < cityOver.capacity ∧
    cityOver.capacity < cityOver.population ∧
    (cityOver.step).base_population < cityOver.base_population ∧
    cityUnder.population < cityUnder.capacity ∧
    cityUnder.base_population < (cityUnder.step).base_population := by
  have hb1 : 0 < cityOver.base_population := by
    show (0 : ℝ) < 1000
    norm_num
  have hc1 : 0 < cityOver.capacity := by
    rw [capacity_cityOver]
    norm_num
  have hb2 : 0 < cityUnder.base_population := by
    show (0 : ℝ) < 10
    norm_num
  have hc2 : 0 < cityUnder.capacity := by
    rw [capacity_cityUnder]
    norm_num
  refine ⟨hb1, hc1, pop_gt_cap_cityOver, ?_, pop_lt_cap_cityUnder, ?_⟩
  · exact ((C6_step_growth cityOver).2.2 hb1 hc1).1 pop_gt_cap_cityOver
  · exact ((C6_step_growth cityUnder).2.2 hb2 hc2).2 pop_lt_cap_cityUnder

/-! Cargo-dict and city-field helper lemmas. -/

theorem Cargo.get_set (c : Cargo) (r : ResourceName) (v : ℝ) (q : ResourceName) :
    (c.set r v).get q = if r = q then v else c.get q := by
  cases r <;> cases q <;> simp [Cargo.set, Cargo.get]

theorem Cargo.total_set (c : Cargo) (r : ResourceName) (v : ℝ) :
    (c.set r v).total = c.total - c.get r + v := by
  cases r <;> simp [Cargo.set, Cargo.get, Cargo.total] <;> ring

theorem City.gold_setStock (c : City) (r : ResourceName) (v : ℝ) :
    (c.setStock r v).gold = c.gold := by
  cases r <;> rfl

theorem pyInt_nonpos {x : ℝ} (h : x ≤ 0) : pyInt x ≤ 0 := by
  unfold pyInt
  split
  · have hx0 : x = 0 := le_antisymm h (by assumption)
    simp [hx0]
  · exact Int.ceil_le.mpr (by exact_mod_cast h)

/-! Loop invariants for the buying and loading operations (C7, C10). -/

theorem buyLoopAtDestination_total (maxHold : ℝ) (dest : City) :
    ∀ (l : List (ResourceName × ℤ)) (s : ShipHold), s.cargo.total ≤ maxHold →
      (buyLoopAtDestination maxHold dest s l).1.cargo.total ≤ maxHold := by
  intro l
  induction l with
  | nil => intro s h; exact h
  | cons p rest ih =>
    intro s h
    obtain ⟨r, amt⟩ := p
    rw [buyLoopAtDestination]
    split
    · exact h
    · split
      · exact h
      · rename_i h1 h2
        apply ih
        have hrem : 0 < maxHold - s.cargo.total := lt_of_not_ge (fun hx => h1 (by linarith))
        have hle : (pyInt (min (maxHold - s.cargo.total)
            (min s.gold (min (amt : ℝ) (dest.excess_supply r) * dest.price r) / dest.price r)) : ℝ)
            ≤ maxHold - s.cargo.total :=
          pyInt_le_of_le (min_le_left _ _) hrem.le
        rw [Cargo.total_set]
        have hget : s.cargo.get r + (pyInt (min (maxHold - s.cargo.total)
            (min s.gold (min (amt : ℝ) (dest.excess_supply r) * dest.price r) / dest.price r)) : ℝ)
            - s.cargo.get r
            ≤ maxHold - s.cargo.total := by linarith
        linarith

theorem buyLoopAtDestination_at_capacity (maxHold : ℝ) (dest : City)
    (l : List (ResourceName × ℤ)) (s : ShipHold) (h : maxHold ≤ s.cargo.total) :
    buyLoopAtDestination maxHold dest s l = (s, dest) := by
  cases l with
  | nil => rfl
  | cons p rest =>
    obtain ⟨r, amt⟩ := p
    rw [buyLoopAtDestination]
    rw [if_pos (by linarith)]

theorem buyLoopAtDestination_gold (maxHold : ℝ) (dest : City) :
    ∀ (l : List (ResourceName × ℤ)) (s : ShipHold), 0 ≤ s.gold →
      0 ≤ (buyLoopAtDestination maxHold dest s l).1.gold := by
  intro l
  induction l with
  | nil => intro s h; exact h
  | cons p rest ih =>
    intro s h
    obtain ⟨r, amt⟩ := p
    rw [buyLoopAtDestination]
    split
    · exact h
    · split
      · exact h
      · rename_i h1 h2
        apply ih
        have hg : 0 < s.gold := lt_of_not_ge (fun hx => h2 (by linarith))
        have hp : 0 < dest.price r := price_pos dest r
        set m := min s.gold (min (amt : ℝ) (dest.excess_supply r) * dest.price r) with hm
        set x := min (maxHold - s.cargo.total) (m / dest.price r) with hx
        show 0 ≤ s.gold - (pyInt x : ℝ) * dest.price r
        rcases le_or_lt 0 x with hx0 | hx0
        · have h1 : (pyInt x : ℝ) ≤ x := pyInt_cast_le hx0
          have h2 : x ≤ m / dest.price r := min_le_right _ _
          have h3 : (pyInt x : ℝ) * dest.price r ≤ (m / dest.price r) * dest.price r :=
            mul_le_mul_of_nonneg_right (le_trans h1 h2) hp.le
          rw [div_mul_cancel₀ m hp.ne.symm] at h3
          have h4 : m ≤ s.gold := min_le_left _ _
          linarith
        · have h1 : pyInt x ≤ 0 := pyInt_nonpos hx0.le
          have h1R : (pyInt x : ℝ) ≤ 0 := by exact_mod_cast h1
          nlinarith

/-- Case analysis of one `_buy_per_agenda` order: the order is either skipped
(recursing on the rest with everything unchanged), breaks the loop at a full
hold, or performs one purchase of a positive integer amount `q` bounded by
remaining capacity, affordable gold, the city's excess supply and (when a
target was given) the remaining need, and only when this stop's price is at
most every unvisited future stop's price. -/
theorem buyPerAgenda_cons_cases (maxHold : ℝ) (route : List City) (idx : ℕ)
    (s : ShipHold) (dest : City) (r : ResourceName) (target : Option ℤ)
    (rest : List (ResourceName × Option ℤ)) :
    buyPerAgenda maxHold route idx s dest ((r, target) :: rest) =
        buyPerAgenda maxHold route idx s dest rest ∨
    buyPerAgenda maxHold route idx s dest ((r, target) :: rest) = (s, dest) ∨
    ∃ q : ℤ, 0 < q ∧
      (q : ℝ) ≤ maxHold - s.cargo.total ∧
      (q : ℝ) * dest.price r ≤ s.gold ∧
      (q : ℝ) ≤ dest.excess_supply r ∧
      (∀ t, target = some t → (q : ℝ) ≤ max 0 ((t : ℝ) - s.cargo.get r)) ∧
      dest.price r ≤ minFuturePrice dest route idx r ∧
      buyPerAgenda maxHold route idx s dest ((r, target) :: rest) =
        buyPerAgenda maxHold route idx
          { cargo := s.cargo.set r (s.cargo.get r + (q : ℝ)),
            gold := s.gold - (q : ℝ) * dest.price r }
          (dest.setStock r (dest.stock r - (q : ℝ))) rest := by
  rw [buyPerAgenda.eq_def]
  dsimp only
  cases target with
  | none =>
    rw [dif_neg (by simp)]
    dsimp only
    by_cases hpr : dest.price r ≤ minFuturePrice dest route idx r
    · rw [if_pos hpr]
      by_cases hcap : pyInt (maxHold - s.cargo.total) ≤ 0
      · rw [if_pos hcap]
        exact Or.inr (Or.inl rfl)
      · rw [if_neg hcap]
        set A : ℤ := pyInt (min ((pyInt (maxHold - s.cargo.total) : ℝ))
          (min (dest.excess_supply r) ((pyInt (maxHold - s.cargo.total) : ℤ) : ℝ))) with hA
        set M : ℤ := if 0 < dest.price r then ⌊s.gold / dest.price r⌋ else 0 with hM
        by_cases hba : min A M ≤ 0
        · rw [if_pos hba]
          exact Or.inl rfl
        · rw [if_neg hba]
          refine Or.inr (Or.inr ⟨min A M, lt_of_not_ge hba, ?_, ?_, ?_, ?_, hpr, rfl⟩)
          · have hApos : 0 < A := lt_of_lt_of_le (lt_of_not_ge hba) (min_le_left A M)
            have hcap' : 0 < pyInt (maxHold - s.cargo.total) := by
              by_contra hx
              have hx' : pyInt (maxHold - s.cargo.total) ≤ 0 := le_of_not_lt hx
              have hR : ((pyInt (maxHold - s.cargo.total) : ℤ) : ℝ) ≤ 0 := by
                exact_mod_cast hx'
              have : A ≤ 0 := by
                rw [hA]
                exact pyInt_nonpos (le_trans (min_le_left _ _) hR)
              omega
            have h1 : ((min A M : ℤ) : ℝ) ≤ (A : ℝ) := by exact_mod_cast min_le_left A M
            have h2 : (A : ℝ) ≤ ((pyInt (maxHold - s.cargo.total) : ℤ) : ℝ) := by
              rw [hA]
              exact le_trans (pyInt_pos_le hApos) (min_le_left _ _)
            have h3 : ((pyInt (maxHold - s.cargo.total) : ℤ) : ℝ) ≤ maxHold - s.cargo.total :=
              pyInt_pos_le hcap'
            linarith
          · have hp := price_pos dest r
            have h1 : ((min A M : ℤ) : ℝ) ≤ (M : ℝ) := by exact_mod_cast min_le_right A M
            have h2 : (M : ℝ) = (⌊s.gold / dest.price r⌋ : ℝ) := by
              rw [hM, if_pos hp]
            have h3 : (⌊s.gold / dest.price r⌋ : ℝ) ≤ s.gold / dest.price r :=
              Int.floor_le _
            have h4 : ((min A M : ℤ) : ℝ) * dest.price r ≤ (s.gold / dest.price r) * dest.price r := by
              apply mul_le_mul_of_nonneg_right _ hp.le
              rw [h2] at h1
              linarith
            rw [div_mul_cancel₀ s.gold hp.ne.symm] at h4
            exact h4
          · have hApos : 0 < A := lt_of_lt_of_le (lt_of_not_ge hba) (min_le_left A M)
            have h1 : ((min A M : ℤ) : ℝ) ≤ (A : ℝ) := by exact_mod_cast min_le_left A M
            have h2 : (A : ℝ) ≤ dest.excess_supply r := by
              rw [hA]
              exact le_trans (pyInt_pos_le hApos)
                (le_trans (min_le_right _ _) (min_le_left _ _))
            linarith
          · intro t ht
            exact absurd ht (by simp)
    · rw [if_neg hpr]
      exact Or.inl rfl
  | some t =>
    by_cases hneed : max 0 ((t : ℝ) - s.cargo.get r) ≤ 0
    · rw [dif_pos ⟨max 0 ((t : ℝ) - s.cargo.get r), rfl, hneed⟩]
      exact Or.inl rfl
    · rw [dif_neg (by
        rintro ⟨n, hn, hn0⟩
        rw [Option.some_inj] at hn
        exact hneed (hn ▸ hn0))]
      by_cases hpr : dest.price r ≤ minFuturePrice dest route idx r
      · rw [if_pos hpr]
        by_cases hcap : pyInt (maxHold - s.cargo.total) ≤ 0
        · rw [if_pos hcap]
          exact Or.inr (Or.inl rfl)
        · rw [if_neg hcap]
          set A : ℤ := pyInt (min (max 0 ((t : ℝ) - s.cargo.get r))
            (min (dest.excess_supply r) ((pyInt (maxHold - s.cargo.total) : ℤ) : ℝ))) with hA
          set M : ℤ := if 0 < dest.price r then ⌊s.gold / dest.price r⌋ else 0 with hM
          by_cases hba : min A M ≤ 0
          · rw [if_pos hba]
            exact Or.inl rfl
          · rw [if_neg hba]
            refine Or.inr (Or.inr ⟨min A M, lt_of_not_ge hba, ?_, ?_, ?_, ?_, hpr, rfl⟩)
            · have hApos : 0 < A := lt_of_lt_of_le (lt_of_not_ge hba) (min_le_left A M)
              have hcap' : 0 < pyInt (maxHold - s.cargo.total) := lt_of_not_ge hcap
              have h1 : ((min A M : ℤ) : ℝ) ≤ (A : ℝ) := by exact_mod_cast min_le_left A M
              have h2 : (A : ℝ) ≤ ((pyInt (maxHold - s.cargo.total) : ℤ) : ℝ) := by
                rw [hA]
                exact le_trans (pyInt_pos_le hApos)
                  (le_trans (min_le_right _ _) (min_le_right _ _))
              have h3 : ((pyInt (maxHold - s.cargo.total) : ℤ) : ℝ) ≤ maxHold - s.cargo.total :=
                pyInt_pos_le hcap'
              linarith
            · have hp := price_pos dest r
              have h1 : ((min A M : ℤ) : ℝ) ≤ (M : ℝ) := by exact_mod_cast min_le_right A M
              have h2 : (M : ℝ) = (⌊s.gold / dest.price r⌋ : ℝ) := by
                rw [hM, if_pos hp]
              have h3 : (⌊s.gold / dest.price r⌋ : ℝ) ≤ s.gold / dest.price r :=
                Int.floor_le _
              have h4 : ((min A M : ℤ) : ℝ) * dest.price r ≤
                  (s.gold / dest.price r) * dest.price r := by
                apply mul_le_mul_of_nonneg_right _ hp.le
                rw [h2] at h1
                linarith
              rw [div_mul_cancel₀ s.gold hp.ne.symm] at h4
              exact h4
            · have hApos : 0 < A := lt_of_lt_of_le (lt_of_not_ge hba) (min_le_left A M)
              have h1 : ((min A M : ℤ) : ℝ) ≤ (A : ℝ) := by exact_mod_cast min_le_left A M
              have h2 : (A : ℝ) ≤ dest.excess_supply r := by
                rw [hA]
                exact le_trans (pyInt_pos_le hApos)
                  (le_trans (min_le_right _ _) (min_le_left _ _))
              linarith
            · intro t' ht'
              rw [Option.some_inj] at ht'
              subst ht'
              have hApos : 0 < A := lt_of_lt_of_le (lt_of_not_ge hba) (min_le_left A M)
              have h1 : ((min A M : ℤ) : ℝ) ≤ (A : ℝ) := by exact_mod_cast min_le_left A M
              have h2 : (A : ℝ) ≤ max 0 ((t : ℝ) - s.cargo.get r) := by
                rw [hA]
                exact le_trans (pyInt_pos_le hApos) (min_le_left _ _)
              linarith
      · rw [if_neg hpr]
        exact Or.inl rfl

theorem buyPerAgenda_total (maxHold : ℝ) (route : List City) (idx : ℕ) :
    ∀ (orders : List (ResourceName × Option ℤ)) (s : ShipHold) (dest : City),
      s.cargo.total ≤ maxHold →
      (buyPerAgenda maxHold route idx s dest orders).1.cargo.total ≤ maxHold := by
  intro orders
  induction orders with
  | nil => intro s dest h; exact h
  | cons p rest ih =>
    intro s dest h
    obtain ⟨r, target⟩ := p
    rcases buyPerAgenda_cons_cases maxHold route idx s dest r target rest with
      heq | heq | ⟨q, hq, hcap, hgold, hsup, hneed, hpr, heq⟩
    · rw [heq]
      exact ih s dest h
    · rw [heq]
      exact h
    · rw [heq]
      apply ih
      rw [Cargo.total_set]
      have hq0 : (0 : ℝ) ≤ (q : ℝ) := by exact_mod_cast hq.le
      linarith

theorem buyPerAgenda_at_capacity (maxHold : ℝ) (route : List City) (idx : ℕ) :
    ∀ (orders : List (ResourceName × Option ℤ)) (s : ShipHold) (dest : City),
      maxHold ≤ s.cargo.total →
      buyPerAgenda maxHold route idx s dest orders = (s, dest) := by
  intro orders
  induction orders with
  | nil => intro s dest _; rfl
  | cons p rest ih =>
    intro s dest h
    obtain ⟨r, target⟩ := p
    rcases buyPerAgenda_cons_cases maxHold route idx s dest r target rest with
      heq | heq | ⟨q, hq, hcap, hgold, hsup, hneed, hpr, heq⟩
    · rw [heq]
      exact ih s dest h
    · exact heq
    · exfalso
      have hq0 : (0 : ℝ) < (q : ℝ) := by exact_mod_cast hq
      linarith

theorem buyPerAgenda_gold (maxHold : ℝ) (route : List City) (idx : ℕ) :
    ∀ (orders : List (ResourceName × Option ℤ)) (s : ShipHold) (dest : City),
      0 ≤ s.gold →
      0 ≤ (buyPerAgenda maxHold route idx s dest orders).1.gold := by
  intro orders
  induction orders with
  | nil => intro s dest h; exact h
  | cons p rest ih =>
    intro s dest h
    obtain ⟨r, target⟩ := p
    rcases buyPerAgenda_cons_cases maxHold route idx s dest r target rest with
      heq | heq | ⟨q, hq, hcap, hgold, hsup, hneed, hpr, heq⟩
    · rw [heq]
      exact ih s dest h
    · rw [heq]
      exact h
    · rw [heq]
      apply ih
      show 0 ≤ s.gold - (q : ℝ) * dest.price r
      linarith

theorem City.stock_setStock (c : City) (r : ResourceName) (v : ℝ) (q : ResourceName) :
    (c.setStock r v).stock q = if r = q then v else c.stock q := by
  cases r <;> cases q <;> simp [City.setStock, City.stock]

theorem loadLoop_cargo (maxHold : ℝ) :
    ∀ (l : List (ResourceName × ℝ)) (s : ShipHold) (start : City),
      (∀ r, 0 ≤ s.cargo.get r) → s.cargo.total ≤ maxHold →
      (∀ r, 0 ≤ (loadLoop maxHold s start l).1.cargo.get r) ∧
        (loadLoop maxHold s start l).1.cargo.total ≤ maxHold := by
  intro l
  induction l with
  | nil => intro s start hn h; exact ⟨hn, h⟩
  | cons p rest ih =>
    intro s start hn h
    obtain ⟨r, excess⟩ := p
    rw [loadLoop.eq_def]
    dsimp only
    by_cases hbrk : maxHold - s.cargo.total ≤ 0 ∨ excess ≤ 0
    · rw [if_pos hbrk]
      exact ⟨hn, h⟩
    · rw [if_neg hbrk]
      push_neg at hbrk
      obtain ⟨hrem, hex⟩ := hbrk
      have hamt0 : 0 ≤ (pyInt (min excess (maxHold - s.cargo.total)) : ℝ) := by
        have := pyInt_nonneg (le_min hex.le hrem.le)
        exact_mod_cast this
      have hamtle : (pyInt (min excess (maxHold - s.cargo.total)) : ℝ) ≤
          maxHold - s.cargo.total :=
        pyInt_le_of_le (min_le_right _ _) hrem.le
      apply ih
      · intro q
        rw [Cargo.get_set]
        split
        · exact hamt0
        · exact hn q
      · rw [Cargo.total_set]
        have := hn r
        linarith

theorem loadLoop_at_capacity (maxHold : ℝ) (l : List (ResourceName × ℝ))
    (s : ShipHold) (start : City) (h : maxHold ≤ s.cargo.total) :
    loadLoop maxHold s start l = (s, start) := by
  cases l with
  | nil => rfl
  | cons p rest =>
    obtain ⟨r, excess⟩ := p
    rw [loadLoop.eq_def]
    dsimp only
    rw [if_pos (Or.inl (by linarith))]

theorem loadLoop_start_gold (maxHold : ℝ) :
    ∀ (l : List (ResourceName × ℝ)) (s : ShipHold) (start : City),
      (loadLoop maxHold s start l).2.gold = start.gold := by
  intro l
  induction l with
  | nil => intro s start; rfl
  | cons p rest ih =>
    intro s start
    obtain ⟨r, excess⟩ := p
    rw [loadLoop.eq_def]
    dsimp only
    by_cases hbrk : maxHold - s.cargo.total ≤ 0 ∨ excess ≤ 0
    · rw [if_pos hbrk]
    · rw [if_neg hbrk]
      rw [ih]
      exact City.gold_setStock start r _

theorem loadCargoToSell_cargo_eq (maxHold u : ℝ) (s : ShipHold) (start : City) :
    (loadCargoToSell maxHold u s start).1.cargo =
      (loadLoop maxHold s start
        (sortDescBy (fun p => p.2) (allResources.map fun r => (r, start.excess_supply r)))).1.cargo :=
  rfl

theorem loadCargoToSell_gold_eq (maxHold u : ℝ) (s : ShipHold) (start : City) :
    (loadCargoToSell maxHold u s start).1.gold =
      (pyInt (0.3 * u * (loadLoop maxHold s start
        (sortDescBy (fun p => p.2)
          (allResources.map fun r => (r, start.excess_supply r)))).2.gold) : ℝ) :=
  rfl

/-- C7: the total cargo never exceeds the spec's hold capacity: the default
buy, the agenda buy and the initial loading each preserve
`total_cargo_in_tons ≤ max_cargo_hold_in_tons`, and a hold already at
capacity gains exactly zero tons from any of them, regardless of gold,
demand or agenda targets. -/
theorem C7_cargo_hold (maxHold : ℝ) (ownerInfo : City) (s : ShipHold) (dest : City)
    (route : List City) (idx : ℕ) (orders : List (ResourceName × Option ℤ))
    (u : ℝ) (start : City) :
    (s.cargo.total ≤ maxHold →
      (buyCargoAtDestination maxHold ownerInfo s dest).1.cargo.total ≤ maxHold ∧
      (buyPerAgenda maxHold route idx s dest orders).1.cargo.total ≤ maxHold) ∧
    ((∀ r, 0 ≤ s.cargo.get r) → s.cargo.total ≤ maxHold →
      (loadCargoToSell maxHold u s start).1.cargo.total ≤ maxHold) ∧
    (maxHold ≤ s.cargo.total →
      (buyCargoAtDestination maxHold ownerInfo s dest).1.cargo.total = s.cargo.total ∧
      (buyPerAgenda maxHold route idx s dest orders).1.cargo.total = s.cargo.total ∧
      (loadCargoToSell maxHold u s start).1.cargo.total = s.cargo.total) := by
  refine ⟨?_, ?_, ?_⟩
  · intro h
    exact ⟨buyLoopAtDestination_total maxHold dest _ s h,
      buyPerAgenda_total maxHold route idx orders s dest h⟩
  · intro hn h
    rw [loadCargoToSell_cargo_eq]
    exact (loadLoop_cargo maxHold _ s start hn h).2
  · intro h
    refine ⟨?_, ?_, ?_⟩
    · rw [buyCargoAtDestination, buyLoopAtDestination_at_capacity maxHold dest _ s h]
    · rw [buyPerAgenda_at_capacity maxHold route idx orders s dest h]
    · rw [loadCargoToSell_cargo_eq, loadLoop_at_capacity maxHold _ s start h]

/-- Witness for C7 at a hold filled to exactly its 20-ton capacity. -/
theorem C7_cargo_hold_witness :
    ((buyCargoAtDestination 20 cityE shipFull cityE).1.cargo.total ≤ 20 ∧
      (buyPerAgenda 20 [] 0 shipFull cityE []).1.cargo.total ≤ 20) ∧
    (loadCargoToSell 20 0 shipFull cityE).1.cargo.total ≤ 20 ∧
    ((buyCargoAtDestination 20 cityE shipFull cityE).1.cargo.total = shipFull.cargo.total ∧
      (buyPerAgenda 20 [] 0 shipFull cityE []).1.cargo.total = shipFull.cargo.total ∧
      (loadCargoToSell 20 0 shipFull cityE).1.cargo.total = shipFull.cargo.total) := by
  have htot : shipFull.cargo.total ≤ 20 := by
    show (20 : ℝ) + 0 + 0 + 0 ≤ 20
    norm_num
  have htot' : (20 : ℝ) ≤ shipFull.cargo.total := by
    show (20 : ℝ) ≤ 20 + 0 + 0 + 0
    norm_num
  have hn : ∀ r, 0 ≤ shipFull.cargo.get r := by
    intro r
    cases r <;> simp [shipFull, Cargo.get]
  obtain ⟨h1, h2, h3⟩ := C7_cargo_hold 20 cityE shipFull cityE [] 0 [] 0 cityE
  exact ⟨h1 htot, h2 hn htot, h3 htot'⟩

/-- C10: a ship's purchasing never drives its gold negative: the default buy,
the agenda buy, and the working-capital draw at departure each leave the
ship's gold non-negative. -/
theorem C10_ship_gold (maxHold : ℝ) (ownerInfo : City) (s : ShipHold) (dest : City)
    (route : List City) (idx : ℕ) (orders : List (ResourceName × Option ℤ))
    (u : ℝ) (start : City) :
    (0 ≤ s.gold → 0 ≤ (buyCargoAtDestination maxHold ownerInfo s dest).1.gold) ∧
    (0 ≤ s.gold → 0 ≤ (buyPerAgenda maxHold route idx s dest orders).1.gold) ∧
    (0 ≤ u → 0 ≤ start.gold → 0 ≤ (loadCargoToSell maxHold u s start).1.gold) := by
  refine ⟨?_, ?_, ?_⟩
  · intro h
    exact buyLoopAtDestination_gold maxHold dest _ s h
  · intro h
    exact buyPerAgenda_gold maxHold route idx orders s dest h
  · intro hu hg
    rw [loadCargoToSell_gold_eq, loadLoop_start_gold]
    have h0 : 0 ≤ 0.3 * u * start.gold := by
      apply mul_nonneg (mul_nonneg (by norm_num) hu) hg
    have := pyInt_nonneg h0
    exact_mod_cast this

/-- Witness for C10 at concrete non-negative inputs. -/
theorem C10_ship_gold_witness :
    0 ≤ (buyCargoAtDestination 20 cityE shipStart cityE).1.gold ∧
    0 ≤ (buyPerAgenda 20 [] 0 shipStart cityE []).1.gold ∧
    0 ≤ (loadCargoToSell 20 0 shipStart cityE).1.gold := by
  have hg : (0 : ℝ) ≤ shipStart.gold := by
    show (0 : ℝ) ≤ 100
    norm_num
  have hu : (0 : ℝ) ≤ 0 := le_refl 0
  have hcg : (0 : ℝ) ≤ cityE.gold := by
    show (0 : ℝ) ≤ 0
    exact le_refl 0
  obtain ⟨h1, h2, h3⟩ := C10_ship_gold 20 cityE shipStart cityE [] 0 [] 0 cityE
  exact ⟨h1 hg, h2 hg, h3 hu hcg⟩

theorem demand_cityE_goods : cityE.demand .goods = 0.125 := by
  unfold City.demand
  rw [population_cityE]
  unfold CONSUMPTION_TONS_PER_CAPITA_PER_DAY
  norm_num

theorem price_cityE_goods : cityE.price .goods = 200 := by
  unfold City.price
  rw [if_neg (by rw [demand_cityE_goods]; norm_num),
    if_pos (by show (0 : ℝ) ≤ 0; exact le_refl 0)]
  unfold RESOURCE_PRICE_LIMITS
  norm_num

theorem demand_cityCheap_goods : cityCheap.demand .goods = 2.5 := by
  unfold City.demand
  rw [population_cityCheap]
  unfold CONSUMPTION_TONS_PER_CAPITA_PER_DAY
  norm_num

theorem price_cityCheap_goods : cityCheap.price .goods = 2.5 := by
  unfold City.price
  rw [demand_cityCheap_goods]
  have hs : cityCheap.supply .goods = 10 := rfl
  rw [hs, if_neg (by norm_num), if_neg (by norm_num)]
  unfold BASE_RESOURCE_PRICE_IN_GOLD RESOURCE_PRICE_ELASTICITY
  have h1 : ((2.5 : ℝ) / 10) = (1 / 2 : ℝ) ^ (2 : ℕ) := by norm_num
  rw [h1, ← Real.rpow_natCast ((1 / 2 : ℝ)) 2, ← Real.rpow_mul (by norm_num)]
  have h2 : ((2 : ℕ) : ℝ) * (0.5 : ℝ) = 1 := by norm_num
  rw [h2, Real.rpow_one]
  unfold clip RESOURCE_PRICE_LIMITS
  rw [max_eq_left (by norm_num), min_eq_left (by norm_num)]
  norm_num

/-- C5: for a single agenda buy order at a stop, the stop's price is
compared against all unvisited future stops; nothing is bought when some
future stop is strictly cheaper; any positive purchase `q` happens only when
this stop's price is minimal (ties buy now) and is bounded by remaining
capacity, the city's excess supply, the ship's gold at the current price,
and the remaining need when a target is given (need unbounded when not). -/
theorem C5_agenda_buy_lookahead (maxHold : ℝ) (route : List City) (idx : ℕ)
    (s : ShipHold) (dest : City) (r : ResourceName) (target : Option ℤ) :
    (minFuturePrice dest route idx r < dest.price r →
      buyPerAgenda maxHold route idx s dest [(r, target)] = (s, dest)) ∧
    ∃ q : ℤ, 0 ≤ q ∧
      (buyPerAgenda maxHold route idx s dest [(r, target)]).1.cargo.get r
        = s.cargo.get r + (q : ℝ) ∧
      (buyPerAgenda maxHold route idx s dest [(r, target)]).1.gold
        = s.gold - (q : ℝ) * dest.price r ∧
      (buyPerAgenda maxHold route idx s dest [(r, target)]).2.stock r
        = dest.stock r - (q : ℝ) ∧
      (0 < q →
        dest.price r ≤ minFuturePrice dest route idx r ∧
        (q : ℝ) ≤ maxHold - s.cargo.total ∧
        (q : ℝ) ≤ dest.excess_supply r ∧
        (q : ℝ) * dest.price r ≤ s.gold ∧
        ∀ t, target = some t → (q : ℝ) ≤ max 0 ((t : ℝ) - s.cargo.get r)) := by
  rcases buyPerAgenda_cons_cases maxHold route idx s dest r target [] with
    heq | heq | ⟨q, hq, hcap, hgold, hsup, hneed, hpr, heq⟩
  · have heq2 : buyPerAgenda maxHold route idx s dest [(r, target)] = (s, dest) := heq
    refine ⟨fun _ => heq2, 0, le_refl 0, ?_, ?_, ?_, ?_⟩
    · rw [heq2]
      simp
    · rw [heq2]
      simp
    · rw [heq2]
      simp
    · intro h
      exact absurd h (by norm_num)
  · refine ⟨fun _ => heq, 0, le_refl 0, ?_, ?_, ?_, ?_⟩
    · rw [heq]
      simp
    · rw [heq]
      simp
    · rw [heq]
      simp
    · intro h
      exact absurd h (by norm_num)
  · have heq2 : buyPerAgenda maxHold route idx s dest [(r, target)] =
        ({ cargo := s.cargo.set r (s.cargo.get r + (q : ℝ)),
            gold := s.gold - (q : ℝ) * dest.price r },
          dest.setStock r (dest.stock r - (q : ℝ))) := heq
    refine ⟨?_, q, hq.le, ?_, ?_, ?_, ?_⟩
    · intro hlt
      exact absurd hpr (not_le.mpr hlt)
    · rw [heq2]
      show (s.cargo.set r (s.cargo.get r + (q : ℝ))).get r = s.cargo.get r + (q : ℝ)
      rw [Cargo.get_set, if_pos rfl]
    · rw [heq2]
    · rw [heq2]
      show (dest.setStock r (dest.stock r - (q : ℝ))).stock r = dest.stock r - (q : ℝ)
      rw [City.stock_setStock, if_pos rfl]
    · intro _
      exact ⟨hpr, hcap, hsup, hgold, hneed⟩

/-- Witness for C5: a stop priced at the ceiling with a strictly cheaper
future stop on the route yields zero purchase there. -/
theorem C5_agenda_buy_lookahead_witness :
    minFuturePrice cityE [cityE, cityCheap] 0 .goods < cityE.price .goods ∧
    buyPerAgenda 20 [cityE, cityCheap] 0 shipStart cityE [(.goods, some 5)] =
      (shipStart, cityE) := by
  have hmin : minFuturePrice cityE [cityE, cityCheap] 0 .goods = 2.5 := by
    unfold minFuturePrice
    show List.foldl min (cityE.price .goods) [cityCheap.price .goods] = 2.5
    rw [price_cityE_goods, price_cityCheap_goods]
    show min (200 : ℝ) 2.5 = 2.5
    rw [min_eq_right (by norm_num)]
  have hlt : minFuturePrice cityE [cityE, cityCheap] 0 .goods < cityE.price .goods := by
    rw [hmin, price_cityE_goods]
    norm_num
  exact ⟨hlt,
    (C5_agenda_buy_lookahead 20 [cityE, cityCheap] 0 shipStart cityE .goods (some 5)).1 hlt⟩

theorem pyInt_zero : pyInt 0 = 0 := by
  rw [show (0 : ℝ) = ((0 : ℤ) : ℝ) by norm_num, pyInt_intCast]

theorem demand_cityBigOwner (r : ResourceName) :
    cityBigOwner.demand r = 10000 * CONSUMPTION_TONS_PER_CAPITA_PER_DAY r := by
  unfold City.demand
  rw [population_cityBigOwner]

theorem demand_cityCheap_food : cityCheap.demand .food = 6.3 := by
  unfold City.demand
  rw [population_cityCheap]
  unfold CONSUMPTION_TONS_PER_CAPITA_PER_DAY
  norm_num

theorem demand_cityCheap_luxuries : cityCheap.demand .luxuries = 1 := by
  unfold City.demand
  rw [population_cityCheap]
  unfold CONSUMPTION_TONS_PER_CAPITA_PER_DAY
  norm_num

theorem demand_cityCheap_cannons : cityCheap.demand .cannons = 0.1 := by
  unfold City.demand
  rw [population_cityCheap]
  unfold CONSUMPTION_TONS_PER_CAPITA_PER_DAY
  norm_num

theorem price_cityCheap_food : cityCheap.price .food = 200 := by
  unfold City.price
  rw [demand_cityCheap_food, if_neg (by norm_num),
    if_pos (by show (0 : ℝ) ≤ 0; exact le_refl 0)]
  unfold RESOURCE_PRICE_LIMITS
  norm_num

theorem price_cityCheap_luxuries : cityCheap.price .luxuries = 200 := by
  unfold City.price
  rw [demand_cityCheap_luxuries, if_neg (by norm_num),
    if_pos (by show (0 : ℝ) ≤ 0; exact le_refl 0)]
  unfold RESOURCE_PRICE_LIMITS
  norm_num

theorem price_cityCheap_cannons : cityCheap.price .cannons = 200 := by
  unfold City.price
  rw [demand_cityCheap_cannons, if_neg (by norm_num),
    if_pos (by show (0 : ℝ) ≤ 0; exact le_refl 0)]
  unfold RESOURCE_PRICE_LIMITS
  norm_num

theorem excess_cityCheap_food : cityCheap.excess_supply .food = 0 := by
  unfold City.excess_supply
  rw [show cityCheap.supply .food = 0 from rfl, demand_cityCheap_food]
  unfold EXCESS_SUPPLY_FRACTION
  rw [max_eq_left (by norm_num)]

theorem excess_cityCheap_goods : cityCheap.excess_supply .goods = 6 := by
  unfold City.excess_supply
  rw [show cityCheap.supply .goods = 10 from rfl, demand_cityCheap_goods]
  unfold EXCESS_SUPPLY_FRACTION
  rw [max_eq_right (by norm_num)]
  norm_num

theorem excess_cityCheap_luxuries : cityCheap.excess_supply .luxuries = 0 := by
  unfold City.excess_supply
  rw [show cityCheap.supply .luxuries = 0 from rfl, demand_cityCheap_luxuries]
  unfold EXCESS_SUPPLY_FRACTION
  rw [max_eq_left (by norm_num)]

theorem excess_cityCheap_cannons : cityCheap.excess_supply .cannons = 0 := by
  unfold City.excess_supply
  rw [show cityCheap.supply .cannons = 0 from rfl, demand_cityCheap_cannons]
  unfold EXCESS_SUPPLY_FRACTION
  rw [max_eq_left (by norm_num)]

theorem buyLoopAtDestination_dest (maxHold : ℝ) (dest : City) :
    ∀ (l : List (ResourceName × ℤ)) (s : ShipHold),
      (buyLoopAtDestination maxHold dest s l).2 = dest := by
  intro l
  induction l with
  | nil => intro s; rfl
  | cons p rest ih =>
    intro s
    obtain ⟨r, amt⟩ := p
    rw [buyLoopAtDestination.eq_def]
    dsimp only
    by_cases h1 : maxHold - s.cargo.total ≤ 0
    · rw [if_pos h1]
    · rw [if_neg h1]
      by_cases h2 : s.gold ≤ 0
      · rw [if_pos h2]
      · rw [if_neg h2]
        exact ih _

theorem buyLoopAtDestination_cons (maxHold : ℝ) (dest : City) (s : ShipHold)
    (r : ResourceName) (amt : ℤ) (rest : List (ResourceName × ℤ))
    (h1 : ¬ (maxHold - s.cargo.total ≤ 0)) (h2 : ¬ (s.gold ≤ 0)) :
    buyLoopAtDestination maxHold dest s ((r, amt) :: rest) =
      buyLoopAtDestination maxHold dest
        { cargo := s.cargo.set r (s.cargo.get r +
            (pyInt (min (maxHold - s.cargo.total)
              (min s.gold (min (amt : ℝ) (dest.excess_supply r) * dest.price r) /
                dest.price r)) : ℝ)),
          gold := s.gold -
            (pyInt (min (maxHold - s.cargo.total)
              (min s.gold (min (amt : ℝ) (dest.excess_supply r) * dest.price r) /
                dest.price r)) : ℝ) * dest.price r }
        rest := by
  rw [buyLoopAtDestination.eq_def]
  dsimp only
  rw [if_neg h1, if_neg h2]

theorem cargoToBuy_cityBigOwner :
    cargoToBuy cityBigOwner =
      [(.food, 63), (.goods, 25), (.luxuries, 10), (.cannons, 1)] := by
  have hf : cityBigOwner.demand .food = 63 := by
    rw [demand_cityBigOwner]
    unfold CONSUMPTION_TONS_PER_CAPITA_PER_DAY
    norm_num
  have hg : cityBigOwner.demand .goods = 25 := by
    rw [demand_cityBigOwner]
    unfold CONSUMPTION_TONS_PER_CAPITA_PER_DAY
    norm_num
  have hl : cityBigOwner.demand .luxuries = 10 := by
    rw [demand_cityBigOwner]
    unfold CONSUMPTION_TONS_PER_CAPITA_PER_DAY
    norm_num
  have hc : cityBigOwner.demand .cannons = 1 := by
    rw [demand_cityBigOwner]
    unfold CONSUMPTION_TONS_PER_CAPITA_PER_DAY
    norm_num
  unfold cargoToBuy allResources
  rw [List.filter_cons, if_pos (by rw [decide_eq_true_eq, hf]; norm_num)]
  rw [List.filter_cons, if_pos (by rw [decide_eq_true_eq, hg]; norm_num)]
  rw [List.filter_cons, if_pos (by rw [decide_eq_true_eq, hl]; norm_num)]
  rw [List.filter_cons, if_pos (by rw [decide_eq_true_eq, hc]; norm_num)]
  rw [List.filter_nil]
  simp only [List.map]
  rw [hf, hg, hl, hc]
  rw [show pyInt (63 : ℝ) = 63 by
      rw [show (63 : ℝ) = ((63 : ℤ) : ℝ) by norm_num, pyInt_intCast],
    show pyInt (25 : ℝ) = 25 by
      rw [show (25 : ℝ) = ((25 : ℤ) : ℝ) by norm_num, pyInt_intCast],
    show pyInt (10 : ℝ) = 10 by
      rw [show (10 : ℝ) = ((10 : ℤ) : ℝ) by norm_num, pyInt_intCast],
    show pyInt (1 : ℝ) = 1 by
      rw [show (1 : ℝ) = ((1 : ℤ) : ℝ) by norm_num, pyInt_intCast]]
  norm_num [sortDescBy, insertDescBy]

theorem pyInt_six : pyInt (6 : ℝ) = 6 := by
  rw [show (6 : ℝ) = ((6 : ℤ) : ℝ) by norm_num, pyInt_intCast]

/-- C1 refuted at a concrete failing input: the default buy at the
destination purchases 6 tons of goods for 15 gold out of the ship, but the
destination city is returned completely unchanged — no gold credited,
no stock removed — so neither the ship+city gold sum nor the per-resource
cargo+stock sum is conserved. -/
theorem C1_default_buy_not_conserving :
    buyCargoAtDestination 20 cityBigOwner shipStart cityCheap = (shipMid, cityCheap) ∧
    shipMid.gold = shipStart.gold - 15 ∧
    shipMid.cargo.get .goods = shipStart.cargo.get .goods + 6 ∧
    shipMid.gold + cityCheap.gold ≠ shipStart.gold + cityCheap.gold ∧
    shipMid.cargo.get .goods + cityCheap.stock .goods ≠
      shipStart.cargo.get .goods + cityCheap.stock .goods := by
  have hA1 : ¬ ((20 : ℝ) - shipStart.cargo.total ≤ 0) := by
    norm_num [shipStart, Cargo.zero, Cargo.total]
  have hB1 : ¬ (shipStart.gold ≤ 0) := by
    norm_num [shipStart]
  have hA3 : ¬ ((20 : ℝ) - shipMid.cargo.total ≤ 0) := by
    norm_num [shipMid, Cargo.total]
  have hB3 : ¬ (shipMid.gold ≤ 0) := by
    norm_num [shipMid]
  have e1 : buyLoopAtDestination 20 cityCheap shipStart
        [(.food, 63), (.goods, 25), (.luxuries, 10), (.cannons, 1)] =
      buyLoopAtDestination 20 cityCheap shipStart
        [(.goods, 25), (.luxuries, 10), (.cannons, 1)] := by
    rw [buyLoopAtDestination_cons 20 cityCheap shipStart .food 63 _ hA1 hB1]
    refine congrFun (congrArg _ ?_) _
    rw [excess_cityCheap_food, price_cityCheap_food]
    norm_num [shipStart, Cargo.zero, Cargo.set, Cargo.get, Cargo.total, min_def, pyInt_zero]
  have e2 : buyLoopAtDestination 20 cityCheap shipStart
        [(.goods, 25), (.luxuries, 10), (.cannons, 1)] =
      buyLoopAtDestination 20 cityCheap shipMid [(.luxuries, 10), (.cannons, 1)] := by
    rw [buyLoopAtDestination_cons 20 cityCheap shipStart .goods 25 _ hA1 hB1]
    refine congrFun (congrArg _ ?_) _
    rw [excess_cityCheap_goods, price_cityCheap_goods]
    norm_num [shipStart, shipMid, Cargo.zero, Cargo.set, Cargo.get, Cargo.total, min_def,
      pyInt_six]
  have e3 : buyLoopAtDestination 20 cityCheap shipMid [(.luxuries, 10), (.cannons, 1)] =
      buyLoopAtDestination 20 cityCheap shipMid [(.cannons, 1)] := by
    rw [buyLoopAtDestination_cons 20 cityCheap shipMid .luxuries 10 _ hA3 hB3]
    refine congrFun (congrArg _ ?_) _
    rw [excess_cityCheap_luxuries, price_cityCheap_luxuries]
    norm_num [shipMid, Cargo.set, Cargo.get, Cargo.total, min_def, pyInt_zero]
  have e4 : buyLoopAtDestination 20 cityCheap shipMid [(.cannons, 1)] =
      (shipMid, cityCheap) := by
    rw [buyLoopAtDestination_cons 20 cityCheap shipMid .cannons 1 _ hA3 hB3]
    have : buyLoopAtDestination 20 cityCheap shipMid ([] : List (ResourceName × ℤ)) =
        (shipMid, cityCheap) := rfl
    rw [← this]
    refine congrFun (congrArg _ ?_) _
    rw [excess_cityCheap_cannons, price_cityCheap_cannons]
    norm_num [shipMid, Cargo.set, Cargo.get, Cargo.total, min_def, pyInt_zero]
  have hmain : buyCargoAtDestination 20 cityBigOwner shipStart cityCheap =
      (shipMid, cityCheap) := by
    show buyLoopAtDestination 20 cityCheap shipStart (cargoToBuy cityBigOwner) =
      (shipMid, cityCheap)
    rw [cargoToBuy_cityBigOwner, e1, e2, e3, e4]
  refine ⟨hmain, ?_, ?_, ?_, ?_⟩
  · show (85 : ℝ) = 100 - 15
    norm_num
  · show (6 : ℝ) = 0 + 6
    norm_num
  · show (85 : ℝ) + 122 ≠ 100 + 122
    norm_num
  · show (6 : ℝ) + 10 ≠ 0 + 10
    norm_num

/-! Association-list and sorting lemmas for the information-market model. -/

theorem mem_insertDescBy {α β : Type} [LinearOrder β] (key : α → β) (a x : α) :
    ∀ l : List α, x ∈ insertDescBy key a l ↔ x = a ∨ x ∈ l := by
  intro l
  induction l with
  | nil => simp [insertDescBy]
  | cons b l ih =>
    rw [insertDescBy]
    split
    · simp
    · simp only [List.mem_cons, ih]
      tauto

theorem mem_sortDescBy {α β : Type} [LinearOrder β] (key : α → β) (x : α) :
    ∀ l : List α, x ∈ sortDescBy key l ↔ x ∈ l := by
  intro l
  induction l with
  | nil => simp [sortDescBy]
  | cons a l ih =>
    rw [sortDescBy, mem_insertDescBy]
    simp [ih]

theorem alookup_isSome_of_mem {α : Type} (p : String × α) :
    ∀ m : List (String × α), p ∈ m → (alookup m p.1).isSome := by
  intro m
  induction m with
  | nil => intro h; cases h
  | cons q m ih =>
    intro hp
    rw [alookup]
    split
    · rfl
    · rcases List.mem_cons.mp hp with heq | hmem
      · subst heq
        simp at *
      · exact ih hmem

theorem alookup_ainsert_self {α : Type} (k : String) (v : α) :
    ∀ m : List (String × α), alookup (ainsert m k v) k = some v := by
  intro m
  induction m with
  | nil => simp [ainsert, alookup]
  | cons q m ih =>
    rw [ainsert]
    split
    · rename_i hq
      rw [alookup, if_pos hq]
    · rename_i hq
      rw [alookup, if_neg hq]
      exact ih

theorem alookup_ainsert_ne {α : Type} (k k' : String) (v : α) (h : k ≠ k') :
    ∀ m : List (String × α), alookup (ainsert m k v) k' = alookup m k' := by
  intro m
  induction m with
  | nil =>
    simp [ainsert, alookup, if_neg h]
  | cons q m ih =>
    rw [ainsert]
    split
    · rename_i hq
      rw [alookup, alookup]
      subst hq
      rw [if_neg h, if_neg h]
    · rw [alookup, alookup]
      split
      · rfl
      · exact ih

theorem mem_keys_ainsert {α : Type} (k x : String) (v : α) :
    ∀ m : List (String × α),
      x ∈ (ainsert m k v).map Prod.fst ↔ x ∈ m.map Prod.fst ∨ x = k := by
  intro m
  induction m with
  | nil => simp [ainsert, eq_comm]
  | cons q m ih =>
    rw [ainsert]
    split
    · rename_i hq
      subst hq
      simp only [List.map_cons, List.mem_cons]
      tauto
    · simp only [List.map_cons, List.mem_cons, ih]
      tauto

theorem NodupKeys_ainsert {α : Type} (k : String) (v : α) :
    ∀ m : List (String × α), NodupKeys m → NodupKeys (ainsert m k v) := by
  intro m
  induction m with
  | nil => intro _; simp [ainsert, NodupKeys]
  | cons q m ih =>
    intro h
    unfold NodupKeys at h ⊢
    rw [List.map_cons, List.nodup_cons] at h
    rw [ainsert]
    split
    · rw [List.map_cons, List.nodup_cons]
      exact h
    · rename_i hq
      rw [List.map_cons, List.nodup_cons]
      constructor
      · intro hmem
        rcases (mem_keys_ainsert k q.1 v m).mp hmem with hmem' | heq
        · exact h.1 hmem'
        · exact hq heq
      · exact ih h.2

theorem NodupKeys_dunion {α : Type} :
    ∀ (m l : List (String × α)), NodupKeys l → NodupKeys (dunion l m) := by
  intro m
  induction m with
  | nil => intro l h; exact h
  | cons p m ih =>
    intro l h
    rw [dunion, List.foldl_cons]
    exact ih _ (NodupKeys_ainsert p.1 p.2 l h)

theorem WellNamed_ainsert {α : Type} (nm : α → String) (k : String) (v : α)
    (hv : nm v = k) :
    ∀ m : List (String × α), WellNamed nm m → WellNamed nm (ainsert m k v) := by
  intro m
  induction m with
  | nil =>
    intro _
    intro p hp
    simp [ainsert] at hp
    subst hp
    exact hv
  | cons q m ih =>
    intro h
    rw [ainsert]
    split
    · rename_i hq
      intro p hp
      rcases List.mem_cons.mp hp with heq | hmem
      · subst heq
        rw [hv, hq]
      · exact h p (List.mem_cons_of_mem q hmem)
    · intro p hp
      rcases List.mem_cons.mp hp with heq | hmem
      · rw [heq]
        exact h q (List.mem_cons_self q m)
      · exact ih (fun p' hp' => h p' (List.mem_cons_of_mem q hp')) p hmem

theorem WellNamed_dunion {α : Type} (nm : α → String) :
    ∀ (m l : List (String × α)), WellNamed nm l → WellNamed nm m →
      WellNamed nm (dunion l m) := by
  intro m
  induction m with
  | nil => intro l hl _; exact hl
  | cons p m ih =>
    intro l hl hm
    rw [dunion, List.foldl_cons]
    exact ih _ (WellNamed_ainsert nm p.1 p.2 (hm p (List.mem_cons_self p m)) l hl)
      (fun q hq => hm q (List.mem_cons_of_mem p hq))

theorem alookup_eq_of_mem_nodup {α : Type} (p : String × α) :
    ∀ m : List (String × α), p ∈ m → NodupKeys m → alookup m p.1 = some p.2 := by
  intro m
  induction m with
  | nil => intro h; cases h
  | cons q m ih =>
    intro hp hnd
    unfold NodupKeys at hnd
    rw [List.map_cons, List.nodup_cons] at hnd
    rcases List.mem_cons.mp hp with heq | hmem
    · subst heq
      rw [alookup, if_pos rfl]
    · rw [alookup]
      split
      · rename_i hq
        exfalso
        apply hnd.1
        rw [hq]
        exact List.mem_map_of_mem Prod.fst hmem
      · exact ih hmem hnd.2

theorem eq_of_mem_nodup_same_key {α : Type} (p q : String × α) (m : List (String × α))
    (hp : p ∈ m) (hq : q ∈ m) (hnd : NodupKeys m) (hk : p.1 = q.1) : p = q := by
  have h1 := alookup_eq_of_mem_nodup p m hp hnd
  have h2 := alookup_eq_of_mem_nodup q m hq hnd
  rw [hk, h2] at h1
  exact Prod.ext hk (Option.some_inj.mp h1).symm

/-- Money accounting of the acquisition loop: the price returned is exactly
the gold removed, the gold never goes negative from a non-negative start,
and the price is the fee times a number of acquisitions `k` that, when every
candidate name resolves, is either all of them or stopped by
unaffordability. -/
theorem buyLoop_spec {α : Type} (cityInfos : List (String × α)) :
    ∀ (names : List String) (gold : ℝ) (info : List (String × α)),
      (buyLoop cityInfos gold info names).1 =
        gold - (buyLoop cityInfos gold info names).2.2 ∧
      (0 ≤ gold → 0 ≤ (buyLoop cityInfos gold info names).1) ∧
      ∃ k : ℕ, k ≤ names.length ∧
        (buyLoop cityInfos gold info names).2.2 =
          CITY_INFORMATION_PRICE_IN_GOLD * k ∧
        ((∀ n ∈ names, (alookup cityInfos n).isSome) →
          (k = names.length ∨
            (buyLoop cityInfos gold info names).1 < CITY_INFORMATION_PRICE_IN_GOLD)) := by
  intro names
  induction names with
  | nil =>
    intro gold info
    refine ⟨by simp [buyLoop], fun h => h, 0, le_refl 0, by simp [buyLoop], fun _ => Or.inl rfl⟩
  | cons n rest ih =>
    intro gold info
    rw [buyLoop.eq_def]
    dsimp only
    by_cases hg : gold < CITY_INFORMATION_PRICE_IN_GOLD
    · rw [if_pos hg]
      refine ⟨by ring_nf, fun h => h, 0, by simp, by simp, fun _ => Or.inr hg⟩
    · rw [if_neg hg]
      cases halk : alookup cityInfos n with
      | none =>
        refine ⟨by ring_nf, fun h => h, 0, by simp, by simp, fun hall => ?_⟩
        exfalso
        have := hall n (List.mem_cons_self n rest)
        rw [halk] at this
        simp at this
      | some c =>
        obtain ⟨ih1, ih2, k, hk, hpr, himp⟩ :=
          ih (gold - CITY_INFORMATION_PRICE_IN_GOLD) (ainsert info n c)
        refine ⟨?_, ?_, k + 1, ?_, ?_, ?_⟩
        · dsimp only
          rw [ih1]
          ring
        · intro h0
          apply ih2
          have : CITY_INFORMATION_PRICE_IN_GOLD ≤ gold := le_of_not_lt hg
          have hfee : (0 : ℝ) < CITY_INFORMATION_PRICE_IN_GOLD := by
            unfold CITY_INFORMATION_PRICE_IN_GOLD
            norm_num
          linarith
        · simp [hk]
        · dsimp only
          rw [hpr]
          push_cast
          ring
        · intro hall
          rcases himp (fun x hx => hall x (List.mem_cons_of_mem n hx)) with heq | hlt
          · left
            simp [heq]
          · right
            exact hlt

/-- C8: `buy_city_info` never drives the buyer's gold negative; the returned
price is exactly the buyer's gold decrease, and equals the fixed fee times
the number of facts acquired, which covers every available fact unless the
loop stopped because the buyer could not afford the next one. The
`WellNamed` hypothesis states that information entries are stored under
their own name, as every dict the program builds is. -/
theorem C8_buy_city_info_gold (buyer source : City) (h0 : 0 ≤ buyer.gold) :
    0 ≤ (buyer.buy_city_info source).1.gold ∧
    (buyer.buy_city_info source).2 =
      buyer.gold - (buyer.buy_city_info source).1.gold ∧
    ∃ k : ℕ,
      k ≤ (buyOrder CitySnap.name CitySnap.recency_in_iterations buyer.information
        source.toSnap source.information).length ∧
      (buyer.buy_city_info source).2 = CITY_INFORMATION_PRICE_IN_GOLD * k ∧
      (WellNamed CitySnap.name source.information →
        (k = (buyOrder CitySnap.name CitySnap.recency_in_iterations buyer.information
            source.toSnap source.information).length ∨
          (buyer.buy_city_info source).1.gold < CITY_INFORMATION_PRICE_IN_GOLD)) := by
  obtain ⟨h1, h2, k, hk, hpr, himp⟩ :=
    buyLoop_spec
      (dunion [(CitySnap.name source.toSnap, source.toSnap)] source.information)
      (buyOrder CitySnap.name CitySnap.recency_in_iterations buyer.information
        source.toSnap source.information)
      buyer.gold buyer.information
  have egold : (buyer.buy_city_info source).1.gold =
      (buyLoop (dunion [(CitySnap.name source.toSnap, source.toSnap)] source.information)
        buyer.gold buyer.information
        (buyOrder CitySnap.name CitySnap.recency_in_iterations buyer.information
          source.toSnap source.information)).1 := rfl
  have eprice : (buyer.buy_city_info source).2 =
      (buyLoop (dunion [(CitySnap.name source.toSnap, source.toSnap)] source.information)
        buyer.gold buyer.information
        (buyOrder CitySnap.name CitySnap.recency_in_iterations buyer.information
          source.toSnap source.information)).2.2 := rfl
  rw [egold, eprice]
  refine ⟨h2 h0, by rw [h1]; ring, k, hk, hpr, fun hwn => ?_⟩
  apply himp
  intro n hn
  have hwnCI : WellNamed CitySnap.name
      (dunion [(CitySnap.name source.toSnap, source.toSnap)] source.information) := by
    apply WellNamed_dunion
    · intro p hp
      simp at hp
      rw [hp]
    · exact hwn
  unfold buyOrder at hn
  rcases List.mem_map.mp hn with ⟨⟨n', d⟩, hmem, hfst⟩
  rw [mem_sortDescBy] at hmem
  unfold diffList at hmem
  rcases List.mem_filterMap.mp hmem with ⟨p, hp, hsome⟩
  rcases Option.map_eq_some'.mp hsome with ⟨d', hd', heqpair⟩
  have hn' : n = CitySnap.name p.2 := by
    have := congrArg Prod.fst heqpair
    simp at this
    rw [← hfst, ← this]
  rw [hn', hwnCI p hp]
  exact alookup_isSome_of_mem p _ hp

/-- Witness for C8 at a concrete buyer and source. -/
theorem C8_buy_city_info_gold_witness :
    0 ≤ (cityBuyer.buy_city_info citySrc).1.gold ∧
    (cityBuyer.buy_city_info citySrc).2 =
      cityBuyer.gold - (cityBuyer.buy_city_info citySrc).1.gold ∧
    ∃ k : ℕ,
      k ≤ (buyOrder CitySnap.name CitySnap.recency_in_iterations cityBuyer.information
        citySrc.toSnap citySrc.information).length ∧
      (cityBuyer.buy_city_info citySrc).2 = CITY_INFORMATION_PRICE_IN_GOLD * k ∧
      (WellNamed CitySnap.name citySrc.information →
        (k = (buyOrder CitySnap.name CitySnap.recency_in_iterations cityBuyer.information
            citySrc.toSnap citySrc.information).length ∨
          (cityBuyer.buy_city_info citySrc).1.gold < CITY_INFORMATION_PRICE_IN_GOLD)) := by
  apply C8_buy_city_info_gold
  show (0 : ℝ) ≤ 1000
  norm_num

/-- After a run of the acquisition loop that paid for every candidate name,
the buyer's information dict is the original with each name's candidate
stored over it, in order. -/
theorem buyLoop_full {α : Type} (cityInfos : List (String × α)) :
    ∀ (names : List String) (gold : ℝ) (info : List (String × α)),
      (buyLoop cityInfos gold info names).2.2 =
        CITY_INFORMATION_PRICE_IN_GOLD * names.length →
      (buyLoop cityInfos gold info names).2.1 =
        names.foldl (storeFact cityInfos) info := by
  intro names
  induction names with
  | nil => intro gold info _; rfl
  | cons n rest ih =>
    intro gold info hfull
    have hfee : (0 : ℝ) < CITY_INFORMATION_PRICE_IN_GOLD := by
      unfold CITY_INFORMATION_PRICE_IN_GOLD
      norm_num
    have hlenpos : (0 : ℝ) < CITY_INFORMATION_PRICE_IN_GOLD * ((n :: rest).length : ℝ) := by
      apply mul_pos hfee
      simp
      positivity
    rw [buyLoop.eq_def] at hfull ⊢
    dsimp only at hfull ⊢
    by_cases hg : gold < CITY_INFORMATION_PRICE_IN_GOLD
    · rw [if_pos hg] at hfull ⊢
      exfalso
      dsimp only at hfull
      rw [← hfull] at hlenpos
      exact lt_irrefl 0 hlenpos
    · rw [if_neg hg] at hfull ⊢
      rw [List.foldl_cons]
      cases halk : alookup cityInfos n with
      | none =>
        rw [halk] at hfull
        exfalso
        have hfull' : (0 : ℝ) =
            CITY_INFORMATION_PRICE_IN_GOLD * ((n :: rest).length : ℝ) := hfull
        rw [← hfull'] at hlenpos
        exact lt_irrefl 0 hlenpos
      | some c =>
        rw [halk] at hfull
        have hfull' : (buyLoop cityInfos (gold - CITY_INFORMATION_PRICE_IN_GOLD)
              (ainsert info n c) rest).2.2 + CITY_INFORMATION_PRICE_IN_GOLD =
            CITY_INFORMATION_PRICE_IN_GOLD * ((n :: rest).length : ℝ) := hfull
        have hst : storeFact cityInfos info n = ainsert info n c := by
          unfold storeFact
          rw [halk]
        rw [hst]
        show (buyLoop cityInfos (gold - CITY_INFORMATION_PRICE_IN_GOLD)
            (ainsert info n c) rest).2.1 =
          List.foldl (storeFact cityInfos) (ainsert info n c) rest
        apply ih
        have hlen : ((n :: rest).length : ℝ) = (rest.length : ℝ) + 1 := by
          simp
        rw [hlen] at hfull'
        linarith [hfull']

theorem alookup_foldl_not_mem {α : Type} (cityInfos : List (String × α)) :
    ∀ (names : List String) (info : List (String × α)) (x : String), x ∉ names →
      alookup (names.foldl (storeFact cityInfos) info) x = alookup info x := by
  intro names
  induction names with
  | nil => intro info x _; rfl
  | cons n rest ih =>
    intro info x hx
    have hxn : x ≠ n := fun h => hx (h ▸ List.mem_cons_self n rest)
    have hxr : x ∉ rest := fun h => hx (List.mem_cons_of_mem n h)
    rw [List.foldl_cons, ih _ x hxr]
    unfold storeFact
    cases halk : alookup cityInfos n with
    | none => rfl
    | some c => exact alookup_ainsert_ne n x c (Ne.symm hxn) info

theorem alookup_foldl_mem {α : Type} (cityInfos : List (String × α)) :
    ∀ (names : List String) (info : List (String × α)) (x : String) (c : α),
      x ∈ names → alookup cityInfos x = some c →
      alookup (names.foldl (storeFact cityInfos) info) x = some c := by
  intro names
  induction names with
  | nil => intro info x c hx _; cases hx
  | cons n rest ih =>
    intro info x c hx halk
    rw [List.foldl_cons]
    by_cases hxr : x ∈ rest
    · exact ih _ x c hxr halk
    · have hxn : x = n := by
        rcases List.mem_cons.mp hx with h | h
        · exact h
        · exact absurd h hxr
      subst hxn
      rw [alookup_foldl_not_mem cityInfos rest _ x hxr]
      unfold storeFact
      rw [halk]
      exact alookup_ainsert_self x c info

theorem mem_buyNames {α : Type} (nm : α → String) (rc : α → ℤ)
    (info m : List (String × α)) (n : String) :
    n ∈ (sortDescBy (fun p => p.2) (diffList nm rc info m)).map Prod.fst ↔
      ∃ p ∈ m, ∃ d, candPriority nm rc info p.2 = some d ∧ n = nm p.2 := by
  constructor
  · intro hn
    rcases List.mem_map.mp hn with ⟨⟨n', d⟩, hmem, hfst⟩
    rw [mem_sortDescBy] at hmem
    rcases List.mem_filterMap.mp hmem with ⟨p, hp, hsome⟩
    rcases Option.map_eq_some'.mp hsome with ⟨d', hd', heqpair⟩
    have h1 : nm p.2 = n' := congrArg Prod.fst heqpair
    exact ⟨p, hp, d', hd', by rw [← hfst, ← h1]⟩
  · rintro ⟨p, hp, d, hd, hn⟩
    apply List.mem_map.mpr
    refine ⟨(nm p.2, d), ?_, hn.symm⟩
    rw [mem_sortDescBy]
    apply List.mem_filterMap.mpr
    refine ⟨p, hp, ?_⟩
    rw [hd]
    rfl

/-- After a full acquisition pass, no candidate of the same source qualifies
again: every stored copy has the candidate's own recency, and every
previously skipped candidate was already not newer. -/
theorem candPriority_after_full {α : Type} (nm : α → String) (rc : α → ℤ)
    (m info0 : List (String × α)) (hwn : WellNamed nm m) (hnd : NodupKeys m)
    (p : String × α) (hp : p ∈ m) :
    candPriority nm rc
      (((sortDescBy (fun p => p.2) (diffList nm rc info0 m)).map Prod.fst).foldl
        (storeFact m) info0) p.2 = none := by
  cases h0 : candPriority nm rc info0 p.2 with
  | some d =>
    have hnmem : nm p.2 ∈ (sortDescBy (fun p => p.2) (diffList nm rc info0 m)).map
        Prod.fst :=
      (mem_buyNames nm rc info0 m (nm p.2)).mpr ⟨p, hp, d, h0, rfl⟩
    have halkm : alookup m (nm p.2) = some p.2 := by
      rw [hwn p hp]
      exact alookup_eq_of_mem_nodup p m hp hnd
    unfold candPriority
    rw [alookup_foldl_mem m _ info0 (nm p.2) p.2 hnmem halkm]
    show (if 0 < rc p.2 - rc p.2 then some (((rc p.2 - rc p.2 : ℤ)) : WithTop ℤ) else none) =
      none
    rw [if_neg (by omega)]
  | none =>
    have hnmem : nm p.2 ∉ (sortDescBy (fun p => p.2) (diffList nm rc info0 m)).map
        Prod.fst := by
      intro hmem
      rcases (mem_buyNames nm rc info0 m (nm p.2)).mp hmem with ⟨p', hp', d', hd', heq⟩
      have hpp : p = p' := by
        apply eq_of_mem_nodup_same_key p p' m hp hp' hnd
        rw [← hwn p hp, ← hwn p' hp', heq]
      rw [← hpp, h0] at hd'
      cases hd'
    unfold candPriority
    rw [alookup_foldl_not_mem m _ info0 (nm p.2) hnmem]
    exact h0

theorem diffList_after_full {α : Type} (nm : α → String) (rc : α → ℤ)
    (m info0 : List (String × α)) (hwn : WellNamed nm m) (hnd : NodupKeys m) :
    diffList nm rc
      (((sortDescBy (fun p => p.2) (diffList nm rc info0 m)).map Prod.fst).foldl
        (storeFact m) info0)
      m = [] := by
  apply List.filterMap_eq_nil_iff.mpr
  intro p hp
  show (candPriority nm rc
      (((sortDescBy (fun p => p.2) (diffList nm rc info0 m)).map Prod.fst).foldl
        (storeFact m) info0) p.2).map (fun d => (nm p.2, d)) = none
  rw [candPriority_after_full nm rc m info0 hwn hnd p hp]
  rfl

/-- C9: once a `buy_city_info` call has acquired every available fact from a
source, an immediately repeated call on the same unchanged source acquires
nothing: the buyer is returned unchanged and the price is 0. -/
theorem C9_buy_city_info_idempotent (buyer source : City)
    (hwn : WellNamed CitySnap.name source.information)
    (hfull : (buyer.buy_city_info source).2 =
      CITY_INFORMATION_PRICE_IN_GOLD *
        (buyOrder CitySnap.name CitySnap.recency_in_iterations buyer.information
          source.toSnap source.information).length) :
    (buyer.buy_city_info source).1.buy_city_info source =
      ((buyer.buy_city_info source).1, 0) := by
  have hwnCI : WellNamed CitySnap.name
      (dunion [(CitySnap.name source.toSnap, source.toSnap)] source.information) := by
    apply WellNamed_dunion
    · intro p hp
      simp at hp
      rw [hp]
    · exact hwn
  have hndCI : NodupKeys
      (dunion [(CitySnap.name source.toSnap, source.toSnap)] source.information) := by
    apply NodupKeys_dunion
    simp [NodupKeys]
  have efull : (buyLoop
      (dunion [(CitySnap.name source.toSnap, source.toSnap)] source.information)
      buyer.gold buyer.information
      (buyOrder CitySnap.name CitySnap.recency_in_iterations buyer.information
        source.toSnap source.information)).2.2 =
      CITY_INFORMATION_PRICE_IN_GOLD *
        (buyOrder CitySnap.name CitySnap.recency_in_iterations buyer.information
          source.toSnap source.information).length := hfull
  have hshape := buyLoop_full
    (dunion [(CitySnap.name source.toSnap, source.toSnap)] source.information)
    (buyOrder CitySnap.name CitySnap.recency_in_iterations buyer.information
      source.toSnap source.information)
    buyer.gold buyer.information efull
  have hdiff : diffList CitySnap.name CitySnap.recency_in_iterations
      ((buyer.buy_city_info source).1.information)
      (dunion [(CitySnap.name source.toSnap, source.toSnap)] source.information) = [] := by
    have einfo : (buyer.buy_city_info source).1.information =
        (buyLoop (dunion [(CitySnap.name source.toSnap, source.toSnap)] source.information)
          buyer.gold buyer.information
          (buyOrder CitySnap.name CitySnap.recency_in_iterations buyer.information
            source.toSnap source.information)).2.1 := rfl
    rw [einfo, hshape]
    exact diffList_after_full CitySnap.name CitySnap.recency_in_iterations
      (dunion [(CitySnap.name source.toSnap, source.toSnap)] source.information)
      buyer.information hwnCI hndCI
  have e2 : (buyer.buy_city_info source).1.buy_city_info source =
      ({ (buyer.buy_city_info source).1 with
          gold := (buyLoop
            (dunion [(CitySnap.name source.toSnap, source.toSnap)] source.information)
            (buyer.buy_city_info source).1.gold
            (buyer.buy_city_info source).1.information
            ((sortDescBy (fun p => p.2)
              (diffList CitySnap.name CitySnap.recency_in_iterations
                (buyer.buy_city_info source).1.information
                (dunion [(CitySnap.name source.toSnap, source.toSnap)]
                  source.information))).map Prod.fst)).1,
          information := (buyLoop
            (dunion [(CitySnap.name source.toSnap, source.toSnap)] source.information)
            (buyer.buy_city_info source).1.gold
            (buyer.buy_city_info source).1.information
            ((sortDescBy (fun p => p.2)
              (diffList CitySnap.name CitySnap.recency_in_iterations
                (buyer.buy_city_info source).1.information
                (dunion [(CitySnap.name source.toSnap, source.toSnap)]
                  source.information))).map Prod.fst)).2.1 },
        (buyLoop
          (dunion [(CitySnap.name source.toSnap, source.toSnap)] source.information)
          (buyer.buy_city_info source).1.gold
          (buyer.buy_city_info source).1.information
          ((sortDescBy (fun p => p.2)
            (diffList CitySnap.name CitySnap.recency_in_iterations
              (buyer.buy_city_info source).1.information
              (dunion [(CitySnap.name source.toSnap, source.toSnap)]
                source.information))).map Prod.fst)).2.2) := rfl
  rw [e2, hdiff]
  rfl

/-- Witness for C9: a buyer with ample gold catches up fully on a fresh
source in one call; the immediate second call returns the buyer unchanged
with price 0. -/
theorem C9_buy_city_info_idempotent_witness :
    WellNamed CitySnap.name citySrc.information ∧
    (cityBuyer.buy_city_info citySrc).2 =
      CITY_INFORMATION_PRICE_IN_GOLD *
        (buyOrder CitySnap.name CitySnap.recency_in_iterations cityBuyer.information
          citySrc.toSnap citySrc.information).length ∧
    (cityBuyer.buy_city_info citySrc).1.buy_city_info citySrc =
      ((cityBuyer.buy_city_info citySrc).1, 0) := by
  have hwn : WellNamed CitySnap.name citySrc.information := by
    intro p hp
    exact absurd hp (List.not_mem_nil p)
  have hnames : buyOrder CitySnap.name CitySnap.recency_in_iterations
      cityBuyer.information citySrc.toSnap citySrc.information = ["S"] := rfl
  have hfull : (cityBuyer.buy_city_info citySrc).2 =
      CITY_INFORMATION_PRICE_IN_GOLD *
        (buyOrder CitySnap.name CitySnap.recency_in_iterations cityBuyer.information
          citySrc.toSnap citySrc.information).length := by
    have e : (cityBuyer.buy_city_info citySrc).2 =
        (buyLoop (dunion [(CitySnap.name citySrc.toSnap, citySrc.toSnap)]
            citySrc.information)
          cityBuyer.gold cityBuyer.information
          (buyOrder CitySnap.name CitySnap.recency_in_iterations cityBuyer.information
            citySrc.toSnap citySrc.information)).2.2 := rfl
    have hCI : dunion [(CitySnap.name citySrc.toSnap, citySrc.toSnap)]
        citySrc.information = [("S", citySrc.toSnap)] := rfl
    rw [e, hCI, hnames, buyLoop.eq_def]
    dsimp only
    rw [if_neg (show ¬ (cityBuyer.gold < CITY_INFORMATION_PRICE_IN_GOLD) by
      show ¬ ((1000 : ℝ) < 100)
      norm_num)]
    have halk : alookup [("S", citySrc.toSnap)] "S" = some citySrc.toSnap := rfl
    rw [halk]
    show (buyLoop [("S", citySrc.toSnap)]
        (cityBuyer.gold - CITY_INFORMATION_PRICE_IN_GOLD)
        (ainsert cityBuyer.information "S" citySrc.toSnap) []).2.2 +
        CITY_INFORMATION_PRICE_IN_GOLD =
      CITY_INFORMATION_PRICE_IN_GOLD * ((1 : ℕ) : ℝ)
    show (0 : ℝ) + CITY_INFORMATION_PRICE_IN_GOLD =
      CITY_INFORMATION_PRICE_IN_GOLD * ((1 : ℕ) : ℝ)
    unfold CITY_INFORMATION_PRICE_IN_GOLD
    norm_num
  exact ⟨hwn, hfull, C9_buy_city_info_idempotent cityBuyer citySrc hwn hfull⟩

/-- Refutation of C4 as stated: `copy.copy` shares the `information` dict by
reference, so after the live city's `buy_city_info` replaces an entry in its
information map, the new entry is reachable from a snapshot taken earlier —
the snapshot is not an independent value copy of everything observable. -/
theorem C4_counterexample :
    (copyH hDest).infoRef = hDest.infoRef ∧
    (buyCityInfoH heap0 hDest hOwnerSnap).1 (copyH hDest).infoRef ≠
      heap0 (copyH hDest).infoRef := by
  refine ⟨rfl, ?_⟩
  have hinfo : (buyCityInfoCore HCity.name HCity.recency_in_iterations
      hDest.gold (heap0 hDest.infoRef) (copyH hOwnerSnap)
      (heap0 hOwnerSnap.infoRef)).2.1 = [("O", copyH hOwnerSnap)] := by
    show (buyLoop [("O", copyH hOwnerSnap)] hDest.gold []
      (buyOrder HCity.name HCity.recency_in_iterations (heap0 hDest.infoRef)
        (copyH hOwnerSnap) (heap0 hOwnerSnap.infoRef))).2.1 = [("O", copyH hOwnerSnap)]
    have hnames : buyOrder HCity.name HCity.recency_in_iterations
        (heap0 hDest.infoRef) (copyH hOwnerSnap) (heap0 hOwnerSnap.infoRef) =
        ["O"] := rfl
    rw [hnames, buyLoop.eq_def]
    dsimp only
    rw [if_neg (show ¬ (hDest.gold < CITY_INFORMATION_PRICE_IN_GOLD) by
      show ¬ ((500 : ℝ) < 100)
      norm_num)]
    have halk : alookup [("O", copyH hOwnerSnap)] "O" = some (copyH hOwnerSnap) := rfl
    rw [halk]
    rfl
  have hheap : (buyCityInfoH heap0 hDest hOwnerSnap).1 (copyH hDest).infoRef =
      [("O", copyH hOwnerSnap)] := by
    show Heap.write heap0 hDest.infoRef
      (buyCityInfoCore HCity.name HCity.recency_in_iterations
        hDest.gold (heap0 hDest.infoRef) (copyH hOwnerSnap)
        (heap0 hOwnerSnap.infoRef)).2.1 (copyH hDest).infoRef =
      [("O", copyH hOwnerSnap)]
    rw [hinfo]
    unfold Heap.write
    rw [if_pos (show (copyH hDest).infoRef = hDest.infoRef from rfl)]
  rw [hheap]
  show [("O", copyH hOwnerSnap)] ≠ []
  simp

/-- C4 (amended): snapshots copy the scalar fields by value and share only
the information-dict reference: `buy_city_info` on a live city writes solely
through the buyer's own information reference, so every dict object at any
other reference — including the source snapshot's — is untouched, no
mutation flows through a snapshot into a live city, and the buyer's fields
other than gold and its dict contents are unchanged; only a snapshot sharing
the buyer's own reference sees the replaced entries. -/
theorem C4_snapshot_frame (h : Heap) (buyer source : HCity) (ref : ℕ)
    (hne : ref ≠ buyer.infoRef) :
    (buyCityInfoH h buyer source).1 ref = h ref ∧
    (buyCityInfoH h buyer source).2.1.name = buyer.name ∧
    (buyCityInfoH h buyer source).2.1.recency_in_iterations =
      buyer.recency_in_iterations ∧
    (buyCityInfoH h buyer source).2.1.infoRef = buyer.infoRef := by
  refine ⟨?_, rfl, rfl, rfl⟩
  show Heap.write h buyer.infoRef
    (buyCityInfoCore HCity.name HCity.recency_in_iterations
      buyer.gold (h buyer.infoRef) (copyH source) (h source.infoRef)).2.1 ref = h ref
  unfold Heap.write
  rw [if_neg hne]

/-- Witness for C4 (amended) at the concrete aliasing scenario: the owner
snapshot's own dict (reference 1) is untouched by the destination's
purchase. -/
theorem C4_snapshot_frame_witness :
    (buyCityInfoH heap0 hDest hOwnerSnap).1 hOwnerSnap.infoRef =
      heap0 hOwnerSnap.infoRef ∧
    (buyCityInfoH heap0 hDest hOwnerSnap).2.1.name = hDest.name ∧
    (buyCityInfoH heap0 hDest hOwnerSnap).2.1.recency_in_iterations =
      hDest.recency_in_iterations ∧
    (buyCityInfoH heap0 hDest hOwnerSnap).2.1.infoRef = hDest.infoRef := by
  apply C4_snapshot_frame heap0 hDest hOwnerSnap hOwnerSnap.infoRef
  show (1 : ℕ) ≠ 0
  norm_num

end PirateCities
